import Mathlib

/-!
Verification development for the SCoT object-oriented API (`scot/ooapi.py`).

The `SCoT` class is a pipeline orchestrator: it holds raw data, class labels,
mixing/unmixing transforms, activations, a VAR model with its noise
covariance, a connectivity model and a topology-map cache, and exposes
`setData`, `doMVARICA`, `fitVAR`, `getConnectivity`, `getTFConnectivity`
and `preparePlots`.

The orchestrator's external collaborators (`var.fit`, `var.fit_multiclass`,
`varica.mvarica`, the `Connectivity` measure evaluations, complex64
narrowing on stores, and the topography renderer) are opaque numeric
services; they are modelled as fields of an `Ext` structure so that every
theorem quantifies over their behaviour.  Arrays are modelled shallowly as
a shape together with a total indexing function over an abstract element
type `V`.
-/

namespace Scot

/-- A 3-D numpy array: shape `(samples, channels, trials)` plus a total
indexing function. -/
structure Arr3 (V : Type) where
  shape : ℕ × ℕ × ℕ
  val : ℕ → ℕ → ℕ → V

/-- A 2-D numpy array (matrix): shape `(rows, cols)` plus indexing. -/
structure Mat (V : Type) where
  shape : ℕ × ℕ
  val : ℕ → ℕ → V

/-- Elementwise map over a 3-D array (used for the dtype conversion numpy
applies when values are stored into a `complex64` result array). -/
def mapArr3 {V : Type} (f : V → V) (a : Arr3 V) : Arr3 V :=
  ⟨a.shape, fun n m t => f (a.val n m t)⟩

/-- A `Connectivity(B, C, nfft)` instance: the constructor at
`ooapi.py` just stores the coefficient matrix, the noise covariance and the
frequency resolution; measures are evaluated on it later. -/
abbrev Conn (V : Type) := Mat V × Mat V × ℕ

/-- The implicit union type used by the Python fields `var_model_`,
`var_cov_` and `connectivity_`: either a single instance or a dict keyed by
class label (modelled as an association list in key order). -/
inductive Rep (α : Type) where
  | single (a : α)
  | perClass (d : List (ℤ × α))

/-- Error kinds raised by the orchestrator, mirroring the Python
exceptions: `precondition` for the explicit `RuntimeError` guards,
`unsupportedMeasure` for the `AttributeError` out of `getattr(con, measure)`,
`computation e` for an error propagated from an AR fit,
`indexError`/`valueError`/`zeroDivision`/`keyError`/`attributeError` for
the corresponding numpy/Python runtime errors. -/
inductive Err (CE : Type) where
  | precondition
  | unsupportedMeasure
  | computation (e : CE)
  | indexError
  | valueError
  | zeroDivision
  | keyError
  | attributeError
deriving DecidableEq

/-- Result record returned by the external `mvarica` call: mixing and
unmixing matrices, VAR coefficients `B`, noise covariance `C` and the
(possibly auto-tuned) regularization `delta`. -/
structure MRes (V : Type) where
  mixing : Mat V
  unmixing : Mat V
  B : Mat V
  C : Mat V
  delta : Option ℚ

/-- The external collaborators of the orchestrator.  `V` is the array
element type, `W` the type of rendered topography maps, `CE` the type of
computation errors an AR fit can raise.

* `varFit` models `var.fit(data, P, delta, return_covariance=True)`;
* `varFitMC` models `var.fit_multiclass(data, cl, P, delta,
  return_covariance=True)`; per the spec its two returned dicts are keyed
  by the distinct class label values, so it is modelled as a total
  function on labels (read only at the distinct labels);
* `mvarica` models `varica.mvarica(X, P, retain_variance, numcomp, delta,
  backend)` (the configured backend is absorbed into the instance);
* `supported name` tells whether `name` is an attribute of a
  `Connectivity` instance (the capability set is fixed by the class, so it
  depends only on the name), and `meas` evaluates that measure;
* `c64` is the elementwise conversion numpy applies when a measure result
  is stored into the `np.complex64` output array of `getTFConnectivity`;
* `topoMap loc w` is the scalp map the `Topoplot` renderer produces from
  sensor locations `loc` and the weight vector `w`. -/
structure Ext (V W CE : Type) where
  varFit : Arr3 V → ℕ → Option ℚ → Except CE (Mat V × Mat V)
  varFitMC : Arr3 V → List ℤ → ℕ → Option ℚ → Except CE (ℤ → Mat V × Mat V)
  mvarica : Arr3 V → ℕ → Option ℚ → Option ℚ → Option ℚ → MRes V
  supported : String → Bool
  meas : String → Conn V → Arr3 V
  c64 : V → V
  topoMap : ℤ → (ℕ → V) → W

/-- The mutable state of a `SCoT` instance: one field per Python
attribute assigned in `__init__` (the `backend_` attribute is absorbed
into `Ext`; `topo_` only records whether the `Topoplot` has been created,
since its locations are the immutable `locations_`). -/
structure State (V W : Type) where
  data_ : Option (Arr3 V)
  cl_ : Option (List ℤ)
  unmixing_ : Option (Mat V)
  mixing_ : Option (Mat V)
  activations_ : Option (Arr3 V)
  var_model_ : Option (Rep (Mat V))
  var_cov_ : Option (Rep (Mat V))
  var_order_ : ℕ
  var_delta_ : Option ℚ
  connectivity_ : Option (Rep (Conn V))
  locations_ : Option ℤ
  reducedim_ : ℚ
  nfft_ : ℕ
  topo_ : Bool
  mixmaps_ : List W
  unmixmaps_ : List W

/-- Constructor-time configuration of a `SCoT` instance. -/
structure Params where
  var_order : ℕ
  var_delta : Option ℚ
  locations : Option ℤ
  reducedim : ℚ
  nfft : ℕ

/-- `SCoT.__init__`: all derived artifacts start out absent, the topology
caches start out empty. -/
def initState (V W : Type) (p : Params) : State V W :=
  { data_ := none, cl_ := none, unmixing_ := none, mixing_ := none,
    activations_ := none, var_model_ := none, var_cov_ := none,
    var_order_ := p.var_order, var_delta_ := p.var_delta,
    connectivity_ := none, locations_ := p.locations,
    reducedim_ := p.reducedim, nfft_ := p.nfft,
    topo_ := false, mixmaps_ := [], unmixmaps_ := [] }

/-- `np.unique` on a list of class labels: the distinct values in sorted
order. -/
def uniqueSorted (l : List ℤ) : List ℤ :=
  l.toFinset.sort (· ≤ ·)

/-- Modelled from the spec: `datatools.dot_special` (not under `src/`)
projects the signal array through the unmixing matrix, trial by trial —
"Activations: the Signal Array projected through the Unmixing Transform;
shape mirrors the Signal Array with the channel axis reinterpreted as
component axis".  For data of shape `(N, M, T)` and unmixing of shape
`(M, K)` the result has shape `(N, K, T)` with
`out[n, k, t] = ∑ m, data[n, m, t] * unmixing[m, k]`. -/
def dotSpecial {V : Type} [CommSemiring V] (a : Arr3 V) (u : Mat V) : Arr3 V :=
  ⟨(a.shape.1, u.shape.2, a.shape.2.2),
   fun n k t => ∑ m ∈ Finset.range a.shape.2.1, a.val n m t * u.val m k⟩

variable {V W CE : Type}

/-- `SCoT.setData(data, cl)`: stores the (already 3-D; `np.atleast_3d` is
the identity on 3-D input) data and the labels, clears the VAR model, the
noise covariance and the connectivity model, and — when an unmixing
transform exists — recomputes the activations by projecting the new data
through it.  Note that when no unmixing transform exists the activations
field is left untouched. -/
def setData [CommSemiring V] (s : State V W) (d : Arr3 V) (cl : Option (List ℤ)) :
    State V W :=
  { s with
    data_ := some d
    cl_ := cl
    var_model_ := none
    var_cov_ := none
    connectivity_ := none
    activations_ :=
      match s.unmixing_ with
      | some u => some (dotSpecial d u)
      | none => s.activations_ }

/-- The dimensionality-reduction arguments `(retain_variance, numcomp)`
passed to `mvarica`: a configured value below 1 selects retained-variance
mode, otherwise fixed-component-count mode. -/
def reduceArgs (rd : ℚ) : Option ℚ × Option ℚ :=
  if rd < 1 then (some rd, none) else (none, some rd)

/-- `SCoT.doMVARICA()`: requires data; delegates to `mvarica` and stores
the mixing/unmixing transforms, the VAR model, its covariance, the tuned
`delta` and a single (non-class) connectivity model.  The activations are
not assigned. -/
def doMVARICA (E : Ext V W CE) (s : State V W) : Except (Err CE) (State V W) :=
  match s.data_ with
  | none => .error .precondition
  | some d =>
    let r := E.mvarica d s.var_order_ (reduceArgs s.reducedim_).1
      (reduceArgs s.reducedim_).2 s.var_delta_
    .ok { s with
      mixing_ := some r.mixing
      unmixing_ := some r.unmixing
      var_model_ := some (.single r.B)
      var_cov_ := some (.single r.C)
      var_delta_ := r.delta
      connectivity_ := some (.single (r.B, r.C, s.nfft_)) }

/-- `SCoT.fitVAR()`: requires activations; without class labels it runs a
single `var.fit` and builds one connectivity model, with class labels it
runs `var.fit_multiclass` and builds one connectivity model per distinct
label value (iterating `np.unique(cl)`). -/
def fitVAR (E : Ext V W CE) (s : State V W) : Except (Err CE) (State V W) :=
  match s.activations_ with
  | none => .error .precondition
  | some a =>
    match s.cl_ with
    | none =>
      match E.varFit a s.var_order_ s.var_delta_ with
      | .error e => .error (.computation e)
      | .ok BC =>
        .ok { s with
          var_model_ := some (.single BC.1)
          var_cov_ := some (.single BC.2)
          connectivity_ := some (.single (BC.1, BC.2, s.nfft_)) }
    | some l =>
      match E.varFitMC a l s.var_order_ s.var_delta_ with
      | .error e => .error (.computation e)
      | .ok f =>
        .ok { s with
          var_model_ := some (.perClass ((uniqueSorted l).map fun c => (c, (f c).1)))
          var_cov_ := some (.perClass ((uniqueSorted l).map fun c => (c, (f c).2)))
          connectivity_ := some (.perClass
            ((uniqueSorted l).map fun c => (c, ((f c).1, (f c).2, s.nfft_)))) }

/-- Output of `SCoT.getConnectivity`: a single measure array, or a dict
from class label to measure array. -/
inductive COut (V : Type) where
  | single (a : Arr3 V)
  | perClass (d : List (ℤ × Arr3 V))

/-- The per-class loop of `getConnectivity`: for each label `c` of
`np.unique(cl)` in order, look up `connectivity_[c]` (a missing key is a
`KeyError`) and evaluate `getattr(·, measure)()` (an unknown measure is an
`AttributeError`). -/
def evalPerClass (E : Ext V W CE) (measure : String) (d : List (ℤ × Conn V)) :
    List ℤ → Except (Err CE) (List (ℤ × Arr3 V))
  | [] => .ok []
  | c :: cs =>
    match d.lookup c with
    | none => .error .keyError
    | some con =>
      if E.supported measure then
        (evalPerClass E measure d cs).map (fun r => (c, E.meas measure con) :: r)
      else .error .unsupportedMeasure

/-- `SCoT.getConnectivity(measure)`: requires a connectivity model; in the
dict case iterates `np.unique(self.cl_)` (with `cl_ = None` the lookup of
the degenerate `np.unique(None)` entry fails — unreachable in practice),
otherwise evaluates the measure on the single model. -/
def getConnectivity (E : Ext V W CE) (s : State V W) (measure : String) :
    Except (Err CE) (COut V) :=
  match s.connectivity_ with
  | none => .error .precondition
  | some (.single con) =>
    if E.supported measure then .ok (.single (E.meas measure con))
    else .error .unsupportedMeasure
  | some (.perClass d) =>
    match s.cl_ with
    | none => .error .keyError
    | some l => (evalPerClass E measure d (uniqueSorted l)).map .perClass

/-- Number of iterations of Python's `range(0, stop, step)` for an integer
`stop` (possibly negative, as `N - winlen` can be) and positive `step`:
`ceil(stop / step)` when `stop > 0`, else `0`. -/
def pyRangeLen (stop : ℤ) (step : ℕ) : ℕ :=
  (stop.toNat + step - 1) / step

/-- The start offsets produced by `range(0, stop, winstep)`. -/
def pyOffsets (stop : ℤ) (step : ℕ) : List ℕ :=
  (List.range (pyRangeLen stop step)).map (· * step)

/-- The window slice `self.activations_[np.arange(winlen) + n, :, :]`:
samples `[n, n + winlen)` across all channels and trials. -/
def sliceWin (acts : Arr3 V) (n winlen : ℕ) : Arr3 V :=
  ⟨(winlen, acts.shape.2.1, acts.shape.2.2), fun j m t => acts.val (n + j) m t⟩

/-- One window slot of the freshly allocated
`np.zeros((M, M, Nstep, nfft), np.complex64)` output. -/
def zeroArr (V : Type) [CommSemiring V] (M nfft : ℕ) : Arr3 V :=
  ⟨(M, M, nfft), fun _ _ _ => 0⟩

/-- The value written into window slot `i` for a fitted `(B, C)`: the
measure evaluated on a fresh `Connectivity(B, C, nfft)`, narrowed
elementwise by the `complex64` store (the spec fixes the measure output
shape to `(M, M, nfft)`, so the store is exactly this elementwise cast). -/
def slotVal (E : Ext V W CE) (measure : String) (nfft : ℕ) (BC : Mat V × Mat V) :
    Arr3 V :=
  mapArr3 E.c64 (E.meas measure (BC.1, BC.2, nfft))

/-- The non-class window loop of `getTFConnectivity`: for each start
offset, fit a fresh VAR model on the window slice, evaluate the measure on
a fresh connectivity model, and store it at slot `i` of the output — the
store raises an `IndexError` when `i` reaches the allocated slot count
`Nstep`. -/
def tfLoopNC (E : Ext V W CE) (measure : String) (winlen Nstep order : ℕ)
    (delta : Option ℚ) (nfft : ℕ) (acts : Arr3 V) :
    List ℕ → ℕ → List (Arr3 V) → Except (Err CE) (List (Arr3 V))
  | [], _, slots => .ok slots
  | n :: ns, i, slots =>
    match E.varFit (sliceWin acts n winlen) order delta with
    | .error e => .error (.computation e)
    | .ok BC =>
      if E.supported measure then
        if i < Nstep then
          tfLoopNC E measure winlen Nstep order delta nfft acts ns (i + 1)
            (slots.set i (slotVal E measure nfft BC))
        else .error .indexError
      else .error .unsupportedMeasure

/-- The per-class window loop of `getTFConnectivity`: each window runs one
`var.fit_multiclass` on the window slice and then stores one measure value
per distinct label; with an empty label list the inner loop body never
runs and the slot index is still advanced. -/
def tfLoopMC (E : Ext V W CE) (measure : String) (winlen Nstep order : ℕ)
    (delta : Option ℚ) (nfft : ℕ) (acts : Arr3 V) (l : List ℤ) :
    List ℕ → ℕ → List (ℤ × List (Arr3 V)) →
      Except (Err CE) (List (ℤ × List (Arr3 V)))
  | [], _, dslots => .ok dslots
  | n :: ns, i, dslots =>
    match E.varFitMC (sliceWin acts n winlen) l order delta with
    | .error e => .error (.computation e)
    | .ok f =>
      if uniqueSorted l = [] then
        tfLoopMC E measure winlen Nstep order delta nfft acts l ns (i + 1) dslots
      else if E.supported measure then
        if i < Nstep then
          tfLoopMC E measure winlen Nstep order delta nfft acts l ns (i + 1)
            (dslots.map fun p => (p.1, p.2.set i (slotVal E measure nfft (f p.1))))
        else .error .indexError
      else .error .unsupportedMeasure

/-- One time/frequency result array of shape `(M, M, Nstep, nfft)`,
represented as the list of its `Nstep` window slots (each an `(M, M, nfft)`
sub-array). -/
structure TFRes (V : Type) where
  shape : ℕ × ℕ × ℕ × ℕ
  slots : List (Arr3 V)

/-- Output of `SCoT.getTFConnectivity`: one time/frequency array, or a
dict of one per distinct class label. -/
inductive TFOut (V : Type) where
  | single (r : TFRes V)
  | perClass (d : List (ℤ × TFRes V))

/-- `SCoT.getTFConnectivity(measure, winlen, winstep)`: requires
activations; computes `Nstep = (N - winlen) // winstep` (Python floor
division, so negative when `N < winlen`, which makes the `np.zeros`
allocation fail with a `ValueError` — in the class case only when at least
one output array is allocated), then runs the window loop over
`range(0, N - winlen, winstep)`.  The method reads but never writes the
orchestrator state. -/
def tfCompute [CommSemiring V] (E : Ext V W CE) (s : State V W)
    (measure : String) (winlen winstep : ℕ) : Except (Err CE) (TFOut V) :=
  match s.activations_ with
  | none => .error .precondition
  | some acts =>
    let N := acts.shape.1
    let M := acts.shape.2.1
    if winstep = 0 then .error .zeroDivision
    else
      let NstepZ : ℤ := Int.fdiv ((N : ℤ) - winlen) winstep
      let offs := pyOffsets ((N : ℤ) - winlen) winstep
      match s.cl_ with
      | none =>
        if NstepZ < 0 then .error .valueError
        else
          (tfLoopNC E measure winlen NstepZ.toNat s.var_order_ s.var_delta_
              s.nfft_ acts offs 0
              (List.replicate NstepZ.toNat (zeroArr V M s.nfft_))).map
            fun slots => .single ⟨(M, M, NstepZ.toNat, s.nfft_), slots⟩
      | some l =>
        if NstepZ < 0 ∧ uniqueSorted l ≠ [] then .error .valueError
        else
          (tfLoopMC E measure winlen NstepZ.toNat s.var_order_ s.var_delta_
              s.nfft_ acts l offs 0
              ((uniqueSorted l).map fun c =>
                (c, List.replicate NstepZ.toNat (zeroArr V M s.nfft_)))).map
            fun d => .perClass (d.map fun p =>
              (p.1, ⟨(M, M, NstepZ.toNat, s.nfft_), p.2⟩))

/-- The scalp maps built for the rows of the mixing matrix
(`self.mixing_[i, :]` for `i < mixing_.shape[0]`). -/
def mixMapsOf (E : Ext V W CE) (loc : ℤ) (m : Mat V) : List W :=
  (List.range m.shape.1).map fun i => E.topoMap loc (fun j => m.val i j)

/-- The scalp maps built for the columns of the unmixing matrix
(`self.unmixing_[:, i]` for `i < unmixing_.shape[1]`). -/
def unmixMapsOf (E : Ext V W CE) (loc : ℤ) (u : Mat V) : List W :=
  (List.range u.shape.2).map fun i => E.topoMap loc (fun j => u.val j i)

/-- The unmixing branch of `preparePlots`: lazily build the unmixing scalp
maps when requested and the cache is empty (reading `unmixing_.shape`
fails with an `AttributeError` when no decomposition has run). -/
def unmixBranch (E : Ext V W CE) (loc : ℤ) (s : State V W) (b : Bool) :
    State V W × Except (Err CE) Unit :=
  if b && s.unmixmaps_.isEmpty then
    match s.unmixing_ with
    | none => (s, .error .attributeError)
    | some u => ({ s with unmixmaps_ := unmixMapsOf E loc u }, .ok ())
  else (s, .ok ())

/-- `SCoT.preparePlots(mixing, unmixing)`: requires sensor locations
(`RuntimeError` otherwise); creates the `Topoplot` on first use; then
lazily fills the mixing and unmixing map caches — each branch runs only
when requested and its cache is still empty, so repeated calls reuse the
cached maps. -/
def preparePlots (E : Ext V W CE) (s : State V W) (mixing unmixing : Bool) :
    State V W × Except (Err CE) Unit :=
  match s.locations_ with
  | none => (s, .error .precondition)
  | some loc =>
    let s1 := if s.topo_ then s else { s with topo_ := true }
    if mixing && s1.mixmaps_.isEmpty then
      match s1.mixing_ with
      | none => (s1, .error .attributeError)
      | some m => unmixBranch E loc { s1 with mixmaps_ := mixMapsOf E loc m } unmixing
    else unmixBranch E loc s1 unmixing

/-- The orchestrator's public operations, as data (for reasoning about
call sequences). -/
inductive Op (V : Type) where
  | setData (d : Arr3 V) (cl : Option (List ℤ))
  | doMVARICA
  | fitVAR
  | getConnectivity (measure : String)
  | getTFConnectivity (measure : String) (winlen winstep : ℕ)
  | preparePlots (mixing unmixing : Bool)

/-- The value an operation returns to the caller. -/
inductive Out (V : Type) where
  | unit
  | conn (c : COut V)
  | tf (t : TFOut V)

/-- One orchestrator step: the state after the call (unchanged when the
call raises before mutating, and always unchanged for the two query
methods, which assign no attribute) together with the call's outcome. -/
def run [CommSemiring V] (E : Ext V W CE) (s : State V W) :
    Op V → State V W × Except (Err CE) (Out V)
  | .setData d cl => (setData s d cl, .ok .unit)
  | .doMVARICA =>
    match doMVARICA E s with
    | .ok s' => (s', .ok .unit)
    | .error e => (s, .error e)
  | .fitVAR =>
    match fitVAR E s with
    | .ok s' => (s', .ok .unit)
    | .error e => (s, .error e)
  | .getConnectivity measure => (s, (getConnectivity E s measure).map .conn)
  | .getTFConnectivity measure winlen winstep =>
    (s, (tfCompute E s measure winlen winstep).map .tf)
  | .preparePlots mixing unmixing =>
    let r := preparePlots E s mixing unmixing
    (r.1, r.2.map fun _ => .unit)

/-- State reached by a sequence of operations. -/
def runSeq [CommSemiring V] (E : Ext V W CE) (s : State V W) (ops : List (Op V)) :
    State V W :=
  ops.foldl (fun st op => (run E st op).1) s

/-- A state is reachable when some construction followed by some sequence
of calls produces it. -/
def Reachable [CommSemiring V] (E : Ext V W CE) (s : State V W) : Prop :=
  ∃ p ops, s = runSeq E (initState V W p) ops

/-- An operation is well-formed when any class labels it supplies are
nonempty — per the data model, labels are "one per trial" and arrays have
at least one trial. -/
def GoodOp : Op V → Prop
  | .setData _ cl => cl ≠ some []
  | _ => True

/-- A state is well-reachable when it is produced by well-formed
operations. -/
def ReachableG [CommSemiring V] (E : Ext V W CE) (s : State V W) : Prop :=
  ∃ p ops, (∀ op ∈ ops, GoodOp op) ∧ s = runSeq E (initState V W p) ops

/-- The single-shot fit-and-evaluate path of the orchestrator applied to a
given activations array (with the configuration and class labels of
state `s`): `fitVAR` followed by `getConnectivity`. -/
def singleShotPath [CommSemiring V] (E : Ext V W CE) (s : State V W)
    (a : Arr3 V) (measure : String) : Except (Err CE) (COut V) :=
  match fitVAR E { s with activations_ := some a } with
  | .error e => .error e
  | .ok s' => getConnectivity E s' measure

/-- The cumulative effect of the window loop's stores when every window
succeeds: write `vals n` at consecutive slot indices starting at `i`. -/
def writeSeq (vals : ℕ → Arr3 V) : List ℕ → ℕ → List (Arr3 V) → List (Arr3 V)
  | [], _, slots => slots
  | n :: ns, i, slots => writeSeq vals ns (i + 1) (slots.set i (vals n))

/-- All three derived model fields hold single (non-class) instances. -/
def allSingle (s : State V W) : Prop :=
  (∃ B, s.var_model_ = some (.single B)) ∧
  (∃ C, s.var_cov_ = some (.single C)) ∧
  (∃ c, s.connectivity_ = some (.single c))

/-- All three derived model fields hold class-keyed mappings with the
given key list. -/
def allPerClass (s : State V W) (ks : List ℤ) : Prop :=
  (∃ d, s.var_model_ = some (.perClass d) ∧ d.map Prod.fst = ks) ∧
  (∃ d, s.var_cov_ = some (.perClass d) ∧ d.map Prod.fst = ks) ∧
  (∃ d, s.connectivity_ = some (.perClass d) ∧ d.map Prod.fst = ks)

/-- State invariant maintained by every well-formed call sequence:
activations only exist once an unmixing transform does, stored class
labels are nonempty, and a class-mapped connectivity model is keyed by
exactly the distinct values of the current class labels. -/
def Inv (s : State V W) : Prop :=
  (s.unmixing_ = none → s.activations_ = none) ∧
  (∀ l, s.cl_ = some l → l ≠ []) ∧
  (∀ d, s.connectivity_ = some (.perClass d) →
    ∃ (l : List ℤ) (g : ℤ → Conn V), s.cl_ = some l ∧
      d = (uniqueSorted l).map fun c => (c, g c))

/-- The state right after `init`, `setData(d, cl)`, `doMVARICA()`. -/
def afterMVARICA [CommSemiring V] (E : Ext V W CE) (p : Params) (d : Arr3 V)
    (cl : Option (List ℤ)) : State V W :=
  (run E (setData (initState V W p) d cl) Op.doMVARICA).1

/-- A fixed 1×1 matrix used by the concrete instantiations below. -/
def mat1 : Mat ℤ := ⟨(1, 1), fun _ _ => 0⟩

/-- A trivial, total instantiation of the external collaborators: every
fit succeeds with `mat1`, every measure is supported and evaluates to a
zero array, the `complex64` store is lossless, maps are trivial. -/
def extTriv : Ext ℤ Unit Unit where
  varFit _ _ _ := .ok (mat1, mat1)
  varFitMC _ _ _ _ := .ok fun _ => (mat1, mat1)
  mvarica _ _ _ _ d := ⟨mat1, mat1, mat1, mat1, d⟩
  supported _ := true
  meas _ _ := ⟨(1, 1, 1), fun _ _ _ => 0⟩
  c64 := id
  topoMap _ _ := ()

/-- An instantiation whose `complex64` store conversion is lossy at one
value: `2^24 + 1` is the smallest positive integer not representable in
IEEE binary32, so numpy's cast to `complex64` rounds it to `2^24`; every
measure evaluates to the constant `2^24 + 1` array. -/
def extC64 : Ext ℤ Unit Unit where
  varFit _ _ _ := .ok (mat1, mat1)
  varFitMC _ _ _ _ := .ok fun _ => (mat1, mat1)
  mvarica _ _ _ _ d := ⟨mat1, mat1, mat1, mat1, d⟩
  supported _ := true
  meas _ _ := ⟨(1, 1, 1), fun _ _ _ => 16777217⟩
  c64 v := if v = 16777217 then 16777216 else v
  topoMap _ _ := ()

/-- An instantiation whose AR fit fails (with the unique `CE` value)
exactly on windows whose first sample is the marker value `99`. -/
def extFail : Ext ℤ Unit Unit where
  varFit a _ _ := if a.val 0 0 0 = 99 then .error () else .ok (mat1, mat1)
  varFitMC a _ _ _ :=
    if a.val 0 0 0 = 99 then .error () else .ok fun _ => (mat1, mat1)
  mvarica _ _ _ _ d := ⟨mat1, mat1, mat1, mat1, d⟩
  supported _ := true
  meas _ _ := ⟨(1, 1, 1), fun _ _ _ => 0⟩
  c64 := id
  topoMap _ _ := ()

/-- An instantiation for measure dispatch: only the name `"dtf"` is a
capability of the connectivity model. -/
def extDisp : Ext ℤ Unit Unit where
  varFit _ _ _ := .ok (mat1, mat1)
  varFitMC _ _ _ _ := .ok fun _ => (mat1, mat1)
  mvarica _ _ _ _ d := ⟨mat1, mat1, mat1, mat1, d⟩
  supported m := m == "dtf"
  meas _ _ := ⟨(1, 1, 1), fun _ _ _ => 0⟩
  c64 := id
  topoMap _ _ := ()

/-- An instantiation with observable topography maps: the decomposition's
mixing/unmixing matrices hold the first sample of the data they were
fitted on, and a scalp map is the first entry of its weight vector. -/
def extTopo : Ext ℤ ℤ Unit where
  varFit _ _ _ := .ok (mat1, mat1)
  varFitMC _ _ _ _ := .ok fun _ => (mat1, mat1)
  mvarica X _ _ _ d :=
    ⟨⟨(1, 1), fun _ _ => X.val 0 0 0⟩, ⟨(1, 1), fun _ _ => X.val 0 0 0⟩,
      mat1, mat1, d⟩
  supported _ := true
  meas _ _ := ⟨(1, 1, 1), fun _ _ _ => 0⟩
  c64 := id
  topoMap _ w := w 0

/-- Constructor configuration without sensor locations. -/
def p0 : Params := ⟨1, none, none, 1, 4⟩

/-- Constructor configuration with sensor locations. -/
def pLoc : Params := ⟨1, none, some 0, 1, 4⟩

/-- A constant 3-D data array of the given shape. -/
def constArr (sh : ℕ × ℕ × ℕ) (v : ℤ) : Arr3 ℤ := ⟨sh, fun _ _ _ => v⟩

/-- Concrete reachable state whose activations have shape `(5, 1, 1)`:
`5 - 2 = 3` is not divisible by the window step `2`. -/
def sCex1 : State ℤ Unit :=
  runSeq extTriv (initState ℤ Unit p0)
    [.setData (constArr (5, 1, 1) 1) none, .doMVARICA,
     .setData (constArr (5, 1, 1) 1) none]

/-- Concrete reachable state whose activations have shape `(6, 1, 1)`. -/
def sW1 : State ℤ Unit :=
  runSeq extTriv (initState ℤ Unit p0)
    [.setData (constArr (6, 1, 1) 1) none, .doMVARICA,
     .setData (constArr (6, 1, 1) 1) none]

/-- A reachable state under the lossy-store instantiation with
activations of shape `(6, 1, 1)` (two windows of length 2 at step 2). -/
def sW1C2 : State ℤ Unit :=
  runSeq extC64 (initState ℤ Unit p0)
    [.setData (constArr (6, 1, 1) 1) none, .doMVARICA,
     .setData (constArr (6, 1, 1) 1) none]

/-- The same reachable state under the lossy-store instantiation, with
activations of shape `(4, 1, 1)` (one window of length 2 at step 2). -/
def sC2 : State ℤ Unit :=
  runSeq extC64 (initState ℤ Unit p0)
    [.setData (constArr (4, 1, 1) 1) none, .doMVARICA,
     .setData (constArr (4, 1, 1) 1) none]

/-- State with activations whose window at offset 2 starts with the
failing marker value. -/
def sFail : State ℤ Unit :=
  { initState ℤ Unit p0 with
    activations_ := some ⟨(6, 1, 1), fun n _ _ => if n = 2 then 99 else 0⟩ }

/-- State with activations and class labels, for the multi-class fit. -/
def sW5 : State ℤ Unit :=
  { initState ℤ Unit p0 with
    activations_ := some (constArr (4, 1, 1) 1), cl_ := some [2, 1] }

/-- The state `fitVAR` produces from `sW5` under `extTriv`. -/
def sW5' : State ℤ Unit :=
  { sW5 with
    var_model_ := some (.perClass ((uniqueSorted [2, 1]).map fun c => (c, mat1)))
    var_cov_ := some (.perClass ((uniqueSorted [2, 1]).map fun c => (c, mat1)))
    connectivity_ := some (.perClass
      ((uniqueSorted [2, 1]).map fun c => (c, (mat1, mat1, (4 : ℕ))))) }

/-- Well-formed call sequence reaching a class-mapped connectivity model:
decompose (to obtain an unmixing transform), re-set the data with class
labels, then fit per class. -/
def ops8 : List (Op ℤ) :=
  [.setData (constArr (4, 1, 1) 1) none, .doMVARICA,
   .setData (constArr (4, 1, 1) 1) (some [1, 2]), .fitVAR]

/-- The state `ops8` reaches under the dispatch instantiation. -/
def s8 : State ℤ Unit :=
  runSeq extDisp (initState ℤ Unit p0) ops8

/-- A directly constructed state with a single connectivity model. -/
def sSing : State ℤ Unit :=
  { initState ℤ Unit p0 with connectivity_ := some (.single (mat1, mat1, 4)) }

/-- A reachable state with unmixing transform present (for the
auto-reprojection witness). -/
def sW4 : State ℤ Unit :=
  runSeq extTriv (initState ℤ Unit p0)
    [.setData (constArr (5, 1, 1) 1) none, .doMVARICA]

/-- Call sequence for the topology-cache counterexample: decompose on
data `A`, render, decompose on data `B`, render again. -/
def ops10 : List (Op ℤ) :=
  [.setData (constArr (1, 1, 1) 1) none, .doMVARICA, .preparePlots true false,
   .setData (constArr (1, 1, 1) 2) none, .doMVARICA, .preparePlots true false]

/-- The state reached by `ops10` under the observable-map instantiation. -/
def s10 : State ℤ ℤ :=
  runSeq extTopo (initState ℤ ℤ pLoc) ops10

/-- The state reached by the first two operations of `ops10` (decomposed,
empty map caches). -/
def s10b : State ℤ ℤ :=
  runSeq extTopo (initState ℤ ℤ pLoc) (ops10.take 2)

/-- State with activations containing the failing marker and class
labels. -/
def sFailMC : State ℤ Unit :=
  { initState ℤ Unit p0 with
    activations_ := some ⟨(6, 1, 1), fun n _ _ => if n = 2 then 99 else 0⟩,
    cl_ := some [1] }

/-- The state reached by the first three operations of `ops10`. -/
def s10a : State ℤ ℤ :=
  runSeq extTopo (initState ℤ ℤ pLoc) (ops10.take 3)

/-- Entry `(n, m, t)` of window slot `i` of a successful non-class
time/frequency result (`none` for errors, class results or missing
slots). -/
def tfEntryNC (x : Except (Err CE) (TFOut V)) (i n m t : ℕ) : Option V :=
  match x with
  | .ok (.single r) =>
    match r.slots[i]? with
    | some a => some (a.val n m t)
    | none => none
  | _ => none

/-- Entry `(n, m, t)` of a successful single-model `getConnectivity`
result. -/
def connEntrySingle (x : Except (Err CE) (COut V)) (n m t : ℕ) : Option V :=
  match x with
  | .ok (.single a) => some (a.val n m t)
  | _ => none

theorem writeSeq_length (vals : ℕ → Arr3 V) (ns : List ℕ) :
    ∀ i slots, (writeSeq vals ns i slots).length = slots.length := by
  induction ns with
  | nil => intro i slots; rfl
  | cons n ns ih =>
    intro i slots
    rw [writeSeq, ih, List.length_set]

theorem writeSeq_getElem?_lt (vals : ℕ → Arr3 V) (ns : List ℕ) :
    ∀ i slots j, j < i → (writeSeq vals ns i slots)[j]? = slots[j]? := by
  induction ns with
  | nil => intro i slots j _; rfl
  | cons n ns ih =>
    intro i slots j hj
    rw [writeSeq, ih _ _ _ (Nat.lt_succ_of_lt hj),
      List.getElem?_set_ne (by omega)]

theorem writeSeq_getElem? (vals : ℕ → Arr3 V) (ns : List ℕ) :
    ∀ i slots k (hk : k < ns.length), i + k < slots.length →
      (writeSeq vals ns i slots)[i + k]? = some (vals ns[k]) := by
  induction ns with
  | nil => intro i slots k hk; exact absurd hk (by simp)
  | cons n ns ih =>
    intro i slots k hk hik
    cases k with
    | zero =>
      rw [writeSeq, writeSeq_getElem?_lt _ _ _ _ _ (by omega)]
      simp only [Nat.add_zero] at hik ⊢
      exact List.getElem?_set_self (by omega)
    | succ k' =>
      rw [writeSeq]
      have hidx : i + (k' + 1) = (i + 1) + k' := by omega
      rw [hidx, ih (i + 1) _ k' (by simpa using hk)
        (by rw [List.length_set]; omega)]
      rfl

theorem writeSeq_offsets (vals : ℕ → Arr3 V) (step Nstep : ℕ)
    (slots : List (Arr3 V)) (h : slots.length = Nstep) :
    writeSeq vals ((List.range Nstep).map (· * step)) 0 slots =
      (List.range Nstep).map fun k => vals (k * step) := by
  apply List.ext_getElem?
  intro j
  by_cases hj : j < Nstep
  · have hlen : j < ((List.range Nstep).map (· * step)).length := by simpa using hj
    have hw := writeSeq_getElem? vals ((List.range Nstep).map (· * step))
      0 slots j hlen (by omega)
    simp only [Nat.zero_add] at hw
    rw [hw, List.getElem?_map, List.getElem?_range hj]
    simp [List.getElem_map, List.getElem_range]
  · rw [List.getElem?_eq_none, List.getElem?_eq_none]
    · simp; omega
    · rw [writeSeq_length]; omega

theorem fdiv_natCast (a b : ℕ) :
    Int.fdiv (a : ℤ) (b : ℤ) = ((a / b : ℕ) : ℤ) :=
  (Int.ofNat_fdiv a b).symm

theorem pyRangeLen_natCast (D step : ℕ) :
    pyRangeLen (D : ℤ) step = (D + step - 1) / step := by
  unfold pyRangeLen
  rw [Int.toNat_natCast]

theorem pyRangeLen_dvd (D step : ℕ) (h : 0 < step) (hd : step ∣ D) :
    pyRangeLen (D : ℤ) step = D / step := by
  obtain ⟨q, rfl⟩ := hd
  rw [pyRangeLen_natCast]
  have h1 : step * q + step - 1 = step * q + (step - 1) := by omega
  rw [h1, Nat.mul_add_div h, Nat.div_eq_of_lt (by omega), Nat.add_zero,
    Nat.mul_div_cancel_left _ h]

theorem pyRangeLen_not_dvd (D step : ℕ) (h : 0 < step) (hd : ¬step ∣ D) :
    pyRangeLen (D : ℤ) step = D / step + 1 := by
  rw [pyRangeLen_natCast]
  have hr : D % step ≠ 0 := fun hc => hd (Nat.dvd_of_mod_eq_zero hc)
  have hlt : D % step < step := Nat.mod_lt _ h
  conv_lhs => rw [← Nat.div_add_mod D step]
  have h1 : step * (D / step) + D % step + step - 1 =
      step * (D / step) + (D % step + step - 1) := by omega
  rw [h1, Nat.mul_add_div h]
  have h2 : D % step + step - 1 = step + (D % step - 1) := by omega
  rw [h2, Nat.add_div_left _ h,
    Nat.div_eq_of_lt (show D % step - 1 < step by omega)]

theorem tfLoopNC_ok (E : Ext V W CE) (measure : String)
    (winlen Nstep order : ℕ) (delta : Option ℚ) (nfft : ℕ) (acts : Arr3 V)
    (fitf : ℕ → Mat V × Mat V) (hsup : E.supported measure = true)
    (ns : List ℕ) :
    ∀ i slots,
      (∀ n ∈ ns, E.varFit (sliceWin acts n winlen) order delta = .ok (fitf n)) →
      i + ns.length ≤ Nstep → slots.length = Nstep →
      tfLoopNC E measure winlen Nstep order delta nfft acts ns i slots =
        .ok (writeSeq (fun n => slotVal E measure nfft (fitf n)) ns i slots) := by
  induction ns with
  | nil => intro i slots _ _ _; rfl
  | cons n ns ih =>
    intro i slots hfit hlen hsl
    rw [tfLoopNC, hfit n (List.mem_cons_self _ _)]
    simp only [hsup, if_true]
    rw [if_pos (show i < Nstep by simp only [List.length_cons] at hlen; omega)]
    rw [ih _ _ (fun m hm => hfit m (List.mem_cons_of_mem _ hm))
      (by simp only [List.length_cons] at hlen; omega)
      (by rw [List.length_set]; exact hsl)]
    rw [writeSeq]

theorem tfLoopNC_indexErr (E : Ext V W CE) (measure : String)
    (winlen Nstep order : ℕ) (delta : Option ℚ) (nfft : ℕ) (acts : Arr3 V)
    (fitf : ℕ → Mat V × Mat V) (hsup : E.supported measure = true)
    (ns : List ℕ) :
    ∀ i slots,
      (∀ n ∈ ns, E.varFit (sliceWin acts n winlen) order delta = .ok (fitf n)) →
      ns ≠ [] → i + ns.length = Nstep + 1 → slots.length = Nstep →
      tfLoopNC E measure winlen Nstep order delta nfft acts ns i slots =
        .error .indexError := by
  induction ns with
  | nil => intro i slots _ hne; exact absurd rfl hne
  | cons n ns ih =>
    intro i slots hfit _ hlen hsl
    rw [tfLoopNC, hfit n (List.mem_cons_self _ _)]
    simp only [hsup, if_true]
    cases ns with
    | nil =>
      rw [if_neg (show ¬i < Nstep by
        simp only [List.length_cons, List.length_nil] at hlen; omega)]
    | cons m ms =>
      rw [if_pos (by simp only [List.length_cons] at hlen; omega)]
      exact ih (i + 1) _ (fun x hx => hfit x (List.mem_cons_of_mem _ hx))
        (by simp) (by simp only [List.length_cons] at hlen ⊢; omega)
        (by rw [List.length_set]; exact hsl)

theorem tfLoopNC_fitErr (E : Ext V W CE) (measure : String)
    (winlen Nstep order : ℕ) (delta : Option ℚ) (nfft : ℕ) (acts : Arr3 V)
    (fitf : ℕ → Mat V × Mat V) (hsup : E.supported measure = true)
    (n0 : ℕ) (e : CE)
    (hbad : E.varFit (sliceWin acts n0 winlen) order delta = .error e)
    (ns1 : List ℕ) :
    ∀ ns2 i slots,
      (∀ n ∈ ns1, E.varFit (sliceWin acts n winlen) order delta = .ok (fitf n)) →
      i + ns1.length ≤ Nstep → slots.length = Nstep →
      tfLoopNC E measure winlen Nstep order delta nfft acts
        (ns1 ++ n0 :: ns2) i slots = .error (.computation e) := by
  induction ns1 with
  | nil =>
    intro ns2 i slots _ _ _
    rw [List.nil_append, tfLoopNC, hbad]
  | cons n ns ih =>
    intro ns2 i slots hfit hlen hsl
    rw [List.cons_append, tfLoopNC, hfit n (List.mem_cons_self _ _)]
    simp only [hsup, if_true]
    rw [if_pos (show i < Nstep by simp only [List.length_cons] at hlen; omega)]
    exact ih _ _ _ (fun m hm => hfit m (List.mem_cons_of_mem _ hm))
      (by simp only [List.length_cons] at hlen; omega)
      (by rw [List.length_set]; exact hsl)

theorem uniqueSorted_ne_nil {l : List ℤ} (h : l ≠ []) : uniqueSorted l ≠ [] := by
  unfold uniqueSorted
  intro hc
  have hcard : l.toFinset.card = 0 := by
    rw [← Finset.length_sort (α := ℤ) (· ≤ ·), hc]
    rfl
  exact h ((List.toFinset_eq_empty_iff l).mp (Finset.card_eq_zero.mp hcard))

theorem lookup_map_self {α : Type} (g : ℤ → α) (ks : List ℤ) :
    ∀ c ∈ ks, (ks.map fun x => (x, g x)).lookup c = some (g c) := by
  induction ks with
  | nil => intro c hc; cases hc
  | cons x ks ih =>
    intro c hc
    rw [List.map_cons, List.lookup_cons]
    by_cases hx : x = c
    · subst hx
      simp
    · have : (c == x) = false := beq_false_of_ne (Ne.symm hx)
      rw [this]
      exact ih c (by cases hc with
        | head => exact absurd rfl hx
        | tail _ h => exact h)

theorem evalPerClass_ok (E : Ext V W CE) (measure : String)
    (hsup : E.supported measure = true) (g : ℤ → Conn V) (ksAll : List ℤ)
    (ks : List ℤ) (hks : ∀ c ∈ ks, c ∈ ksAll) :
    evalPerClass E measure (ksAll.map fun x => (x, g x)) ks =
      .ok (ks.map fun c => (c, E.meas measure (g c))) := by
  induction ks with
  | nil => rfl
  | cons c ks ih =>
    rw [evalPerClass, lookup_map_self g ksAll c (hks c (List.mem_cons_self _ _))]
    simp only [hsup, if_true]
    rw [ih (fun x hx => hks x (List.mem_cons_of_mem _ hx))]
    rfl

theorem evalPerClass_unsupported (E : Ext V W CE) (measure : String)
    (hsup : E.supported measure = false) (g : ℤ → Conn V) (ksAll : List ℤ)
    (c : ℤ) (ks : List ℤ) (hc : c ∈ ksAll) :
    evalPerClass E measure (ksAll.map fun x => (x, g x)) (c :: ks) =
      .error .unsupportedMeasure := by
  rw [evalPerClass, lookup_map_self g ksAll c hc]
  simp [hsup]

theorem tfLoopMC_ok (E : Ext V W CE) (measure : String)
    (winlen Nstep order : ℕ) (delta : Option ℚ) (nfft : ℕ) (acts : Arr3 V)
    (l : List ℤ) (fmc : ℕ → ℤ → Mat V × Mat V)
    (hsup : E.supported measure = true) (hne : uniqueSorted l ≠ [])
    (ns : List ℕ) :
    ∀ i dslots,
      (∀ n ∈ ns, E.varFitMC (sliceWin acts n winlen) l order delta = .ok (fmc n)) →
      i + ns.length ≤ Nstep →
      tfLoopMC E measure winlen Nstep order delta nfft acts l ns i dslots =
        .ok (dslots.map fun p =>
          (p.1, writeSeq (fun n => slotVal E measure nfft (fmc n p.1)) ns i p.2)) := by
  induction ns with
  | nil =>
    intro i dslots _ _
    rw [tfLoopMC]
    simp [writeSeq]
  | cons n ns ih =>
    intro i dslots hfit hlen
    rw [tfLoopMC, hfit n (List.mem_cons_self _ _)]
    simp only
    rw [if_neg hne]
    simp only [hsup, if_true]
    rw [if_pos (show i < Nstep by simp only [List.length_cons] at hlen; omega)]
    rw [ih (i + 1) _ (fun m hm => hfit m (List.mem_cons_of_mem _ hm))
      (by simp only [List.length_cons] at hlen; omega)]
    rw [List.map_map]
    rfl

theorem tfLoopMC_indexErr (E : Ext V W CE) (measure : String)
    (winlen Nstep order : ℕ) (delta : Option ℚ) (nfft : ℕ) (acts : Arr3 V)
    (l : List ℤ) (fmc : ℕ → ℤ → Mat V × Mat V)
    (hsup : E.supported measure = true) (hne : uniqueSorted l ≠ [])
    (ns : List ℕ) :
    ∀ i dslots,
      (∀ n ∈ ns, E.varFitMC (sliceWin acts n winlen) l order delta = .ok (fmc n)) →
      ns ≠ [] → i + ns.length = Nstep + 1 →
      tfLoopMC E measure winlen Nstep order delta nfft acts l ns i dslots =
        .error .indexError := by
  induction ns with
  | nil => intro i dslots _ hne'; exact absurd rfl hne'
  | cons n ns ih =>
    intro i dslots hfit _ hlen
    rw [tfLoopMC, hfit n (List.mem_cons_self _ _)]
    simp only
    rw [if_neg hne]
    simp only [hsup, if_true]
    cases ns with
    | nil =>
      rw [if_neg (show ¬i < Nstep by
        simp only [List.length_cons, List.length_nil] at hlen; omega)]
    | cons m ms =>
      rw [if_pos (by simp only [List.length_cons] at hlen; omega)]
      exact ih (i + 1) _ (fun x hx => hfit x (List.mem_cons_of_mem _ hx))
        (by simp) (by simp only [List.length_cons] at hlen ⊢; omega)

theorem tfLoopMC_fitErr (E : Ext V W CE) (measure : String)
    (winlen Nstep order : ℕ) (delta : Option ℚ) (nfft : ℕ) (acts : Arr3 V)
    (l : List ℤ) (fmc : ℕ → ℤ → Mat V × Mat V)
    (hsup : E.supported measure = true) (hne : uniqueSorted l ≠ [])
    (n0 : ℕ) (e : CE)
    (hbad : E.varFitMC (sliceWin acts n0 winlen) l order delta = .error e)
    (ns1 : List ℕ) :
    ∀ ns2 i dslots,
      (∀ n ∈ ns1, E.varFitMC (sliceWin acts n winlen) l order delta = .ok (fmc n)) →
      i + ns1.length ≤ Nstep →
      tfLoopMC E measure winlen Nstep order delta nfft acts l
        (ns1 ++ n0 :: ns2) i dslots = .error (.computation e) := by
  induction ns1 with
  | nil =>
    intro ns2 i dslots _ _
    rw [List.nil_append, tfLoopMC, hbad]
  | cons n ns ih =>
    intro ns2 i dslots hfit hlen
    rw [List.cons_append, tfLoopMC, hfit n (List.mem_cons_self _ _)]
    simp only
    rw [if_neg hne]
    simp only [hsup, if_true]
    rw [if_pos (show i < Nstep by simp only [List.length_cons] at hlen; omega)]
    exact ih _ _ _ (fun m hm => hfit m (List.mem_cons_of_mem _ hm))
      (by simp only [List.length_cons] at hlen; omega)

theorem tfCompute_NC_ok [CommSemiring V] (E : Ext V W CE) (s : State V W)
    (acts : Arr3 V) (measure : String) (winlen winstep N M T : ℕ)
    (fitf : ℕ → Mat V × Mat V)
    (hacts : s.activations_ = some acts) (hcl : s.cl_ = none)
    (hshape : acts.shape = (N, M, T)) (hstep : 0 < winstep)
    (hwl : winlen ≤ N) (hdvd : winstep ∣ (N - winlen))
    (hsup : E.supported measure = true)
    (hfit : ∀ n ∈ pyOffsets ((N : ℤ) - winlen) winstep,
      E.varFit (sliceWin acts n winlen) s.var_order_ s.var_delta_ = .ok (fitf n)) :
    tfCompute E s measure winlen winstep =
      .ok (.single ⟨(M, M, (N - winlen) / winstep, s.nfft_),
        (List.range ((N - winlen) / winstep)).map
          fun k => slotVal E measure s.nfft_ (fitf (k * winstep))⟩) := by
  have hne0 : winstep ≠ 0 := Nat.pos_iff_ne_zero.mp hstep
  have hstop : (N : ℤ) - winlen = ((N - winlen : ℕ) : ℤ) := by omega
  have hoffs : pyOffsets (((N - winlen : ℕ) : ℤ)) winstep =
      (List.range ((N - winlen) / winstep)).map (· * winstep) := by
    unfold pyOffsets
    rw [pyRangeLen_dvd _ _ hstep hdvd]
  rw [hstop, hoffs] at hfit
  simp only [tfCompute, hacts, hcl, hshape, hne0, if_false, hstop,
    fdiv_natCast, Int.toNat_natCast]
  rw [if_neg (not_lt.mpr (Int.natCast_nonneg _))]
  rw [hoffs]
  rw [tfLoopNC_ok E measure winlen ((N - winlen) / winstep) s.var_order_
    s.var_delta_ s.nfft_ acts fitf hsup _ 0 _ hfit
    (by simp) (List.length_replicate _ _)]
  rw [writeSeq_offsets _ _ _ _ (List.length_replicate _ _)]
  rfl

theorem tfCompute_NC_valueErr [CommSemiring V] (E : Ext V W CE) (s : State V W)
    (acts : Arr3 V) (measure : String) (winlen winstep N M T : ℕ)
    (hacts : s.activations_ = some acts) (hcl : s.cl_ = none)
    (hshape : acts.shape = (N, M, T)) (hstep : 0 < winstep)
    (hlt : N < winlen) :
    tfCompute E s measure winlen winstep = .error .valueError := by
  have hne0 : winstep ≠ 0 := Nat.pos_iff_ne_zero.mp hstep
  simp only [tfCompute, hacts, hcl, hshape, hne0, if_false]
  rw [if_pos (Int.fdiv_neg' (by omega) (by exact_mod_cast hstep))]

theorem tfCompute_NC_indexErr [CommSemiring V] (E : Ext V W CE) (s : State V W)
    (acts : Arr3 V) (measure : String) (winlen winstep N M T : ℕ)
    (fitf : ℕ → Mat V × Mat V)
    (hacts : s.activations_ = some acts) (hcl : s.cl_ = none)
    (hshape : acts.shape = (N, M, T)) (hstep : 0 < winstep)
    (hwl : winlen ≤ N) (hnd : ¬winstep ∣ (N - winlen))
    (hsup : E.supported measure = true)
    (hfit : ∀ n ∈ pyOffsets ((N : ℤ) - winlen) winstep,
      E.varFit (sliceWin acts n winlen) s.var_order_ s.var_delta_ = .ok (fitf n)) :
    tfCompute E s measure winlen winstep = .error .indexError := by
  have hne0 : winstep ≠ 0 := Nat.pos_iff_ne_zero.mp hstep
  have hstop : (N : ℤ) - winlen = ((N - winlen : ℕ) : ℤ) := by omega
  have hoffs : pyOffsets (((N - winlen : ℕ) : ℤ)) winstep =
      (List.range ((N - winlen) / winstep + 1)).map (· * winstep) := by
    unfold pyOffsets
    rw [pyRangeLen_not_dvd _ _ hstep hnd]
  rw [hstop, hoffs] at hfit
  simp only [tfCompute, hacts, hcl, hshape, hne0, if_false, hstop,
    fdiv_natCast, Int.toNat_natCast]
  rw [if_neg (not_lt.mpr (Int.natCast_nonneg _))]
  rw [hoffs]
  rw [tfLoopNC_indexErr E measure winlen ((N - winlen) / winstep) s.var_order_
    s.var_delta_ s.nfft_ acts fitf hsup _ 0 _ hfit
    (by simp) (by simp) (List.length_replicate _ _)]
  rfl

theorem tfCompute_NC_fitErr [CommSemiring V] (E : Ext V W CE) (s : State V W)
    (acts : Arr3 V) (measure : String) (winlen winstep N M T : ℕ)
    (fitf : ℕ → Mat V × Mat V) (ns1 ns2 : List ℕ) (n0 : ℕ) (e : CE)
    (hacts : s.activations_ = some acts) (hcl : s.cl_ = none)
    (hshape : acts.shape = (N, M, T)) (hstep : 0 < winstep)
    (hwl : winlen ≤ N)
    (hdec : pyOffsets ((N : ℤ) - winlen) winstep = ns1 ++ n0 :: ns2)
    (hfit : ∀ n ∈ ns1,
      E.varFit (sliceWin acts n winlen) s.var_order_ s.var_delta_ = .ok (fitf n))
    (hbad : E.varFit (sliceWin acts n0 winlen) s.var_order_ s.var_delta_ =
      .error e)
    (hsup : E.supported measure = true)
    (hlen : ns1.length ≤ (N - winlen) / winstep) :
    tfCompute E s measure winlen winstep = .error (.computation e) := by
  have hne0 : winstep ≠ 0 := Nat.pos_iff_ne_zero.mp hstep
  have hstop : (N : ℤ) - winlen = ((N - winlen : ℕ) : ℤ) := by omega
  simp only [tfCompute, hacts, hcl, hshape, hne0, if_false, hstop,
    fdiv_natCast, Int.toNat_natCast]
  rw [if_neg (not_lt.mpr (Int.natCast_nonneg _))]
  rw [show pyOffsets (((N - winlen : ℕ) : ℤ)) winstep = ns1 ++ n0 :: ns2 from
    hstop ▸ hdec]
  rw [tfLoopNC_fitErr E measure winlen ((N - winlen) / winstep) s.var_order_
    s.var_delta_ s.nfft_ acts fitf hsup n0 e hbad ns1 ns2 0 _ hfit
    (by omega) (List.length_replicate _ _)]
  rfl

theorem tfCompute_MC_ok [CommSemiring V] (E : Ext V W CE) (s : State V W)
    (acts : Arr3 V) (measure : String) (winlen winstep N M T : ℕ)
    (l : List ℤ) (fmc : ℕ → ℤ → Mat V × Mat V)
    (hacts : s.activations_ = some acts) (hcl : s.cl_ = some l)
    (hshape : acts.shape = (N, M, T)) (hstep : 0 < winstep)
    (hwl : winlen ≤ N) (hdvd : winstep ∣ (N - winlen)) (hlne : l ≠ [])
    (hsup : E.supported measure = true)
    (hfit : ∀ n ∈ pyOffsets ((N : ℤ) - winlen) winstep,
      E.varFitMC (sliceWin acts n winlen) l s.var_order_ s.var_delta_ =
        .ok (fmc n)) :
    tfCompute E s measure winlen winstep =
      .ok (.perClass ((uniqueSorted l).map fun c =>
        (c, ⟨(M, M, (N - winlen) / winstep, s.nfft_),
          (List.range ((N - winlen) / winstep)).map
            fun k => slotVal E measure s.nfft_ (fmc (k * winstep) c)⟩))) := by
  have hne0 : winstep ≠ 0 := Nat.pos_iff_ne_zero.mp hstep
  have hstop : (N : ℤ) - winlen = ((N - winlen : ℕ) : ℤ) := by omega
  have hoffs : pyOffsets (((N - winlen : ℕ) : ℤ)) winstep =
      (List.range ((N - winlen) / winstep)).map (· * winstep) := by
    unfold pyOffsets
    rw [pyRangeLen_dvd _ _ hstep hdvd]
  have hneU : uniqueSorted l ≠ [] := uniqueSorted_ne_nil hlne
  rw [hstop, hoffs] at hfit
  simp only [tfCompute, hacts, hcl, hshape, hne0, if_false, hstop,
    fdiv_natCast, Int.toNat_natCast]
  rw [if_neg (fun h => absurd h.1 (not_lt.mpr (Int.natCast_nonneg _)))]
  rw [hoffs]
  rw [tfLoopMC_ok E measure winlen ((N - winlen) / winstep) s.var_order_
    s.var_delta_ s.nfft_ acts l fmc hsup hneU _ 0 _ hfit (by simp)]
  have hws : ∀ c : ℤ,
      writeSeq (fun n => slotVal E measure s.nfft_ (fmc n c))
        ((List.range ((N - winlen) / winstep)).map (· * winstep)) 0
        (List.replicate ((N - winlen) / winstep) (zeroArr V M s.nfft_)) =
      (List.range ((N - winlen) / winstep)).map
        fun k => slotVal E measure s.nfft_ (fmc (k * winstep) c) :=
    fun c => writeSeq_offsets _ _ _ _ (List.length_replicate _ _)
  simp only [Except.map, List.map_map]
  apply congrArg
  apply congrArg
  refine congrArg (fun f => List.map f (uniqueSorted l)) ?_
  funext c
  simp only [Function.comp_apply]
  rw [hws c]

theorem tfCompute_MC_valueErr [CommSemiring V] (E : Ext V W CE) (s : State V W)
    (acts : Arr3 V) (measure : String) (winlen winstep N M T : ℕ) (l : List ℤ)
    (hacts : s.activations_ = some acts) (hcl : s.cl_ = some l)
    (hshape : acts.shape = (N, M, T)) (hstep : 0 < winstep)
    (hlt : N < winlen) (hlne : l ≠ []) :
    tfCompute E s measure winlen winstep = .error .valueError := by
  have hne0 : winstep ≠ 0 := Nat.pos_iff_ne_zero.mp hstep
  simp only [tfCompute, hacts, hcl, hshape, hne0, if_false]
  rw [if_pos ⟨Int.fdiv_neg' (by omega) (by exact_mod_cast hstep),
    uniqueSorted_ne_nil hlne⟩]

theorem tfCompute_MC_indexErr [CommSemiring V] (E : Ext V W CE) (s : State V W)
    (acts : Arr3 V) (measure : String) (winlen winstep N M T : ℕ)
    (l : List ℤ) (fmc : ℕ → ℤ → Mat V × Mat V)
    (hacts : s.activations_ = some acts) (hcl : s.cl_ = some l)
    (hshape : acts.shape = (N, M, T)) (hstep : 0 < winstep)
    (hwl : winlen ≤ N) (hnd : ¬winstep ∣ (N - winlen)) (hlne : l ≠ [])
    (hsup : E.supported measure = true)
    (hfit : ∀ n ∈ pyOffsets ((N : ℤ) - winlen) winstep,
      E.varFitMC (sliceWin acts n winlen) l s.var_order_ s.var_delta_ =
        .ok (fmc n)) :
    tfCompute E s measure winlen winstep = .error .indexError := by
  have hne0 : winstep ≠ 0 := Nat.pos_iff_ne_zero.mp hstep
  have hstop : (N : ℤ) - winlen = ((N - winlen : ℕ) : ℤ) := by omega
  have hoffs : pyOffsets (((N - winlen : ℕ) : ℤ)) winstep =
      (List.range ((N - winlen) / winstep + 1)).map (· * winstep) := by
    unfold pyOffsets
    rw [pyRangeLen_not_dvd _ _ hstep hnd]
  rw [hstop, hoffs] at hfit
  simp only [tfCompute, hacts, hcl, hshape, hne0, if_false, hstop,
    fdiv_natCast, Int.toNat_natCast]
  rw [if_neg (fun h => absurd h.1 (not_lt.mpr (Int.natCast_nonneg _)))]
  rw [hoffs]
  rw [tfLoopMC_indexErr E measure winlen ((N - winlen) / winstep) s.var_order_
    s.var_delta_ s.nfft_ acts l fmc hsup (uniqueSorted_ne_nil hlne) _ 0 _ hfit
    (by simp) (by simp)]
  rfl

theorem tfCompute_MC_fitErr [CommSemiring V] (E : Ext V W CE) (s : State V W)
    (acts : Arr3 V) (measure : String) (winlen winstep N M T : ℕ)
    (l : List ℤ) (fmc : ℕ → ℤ → Mat V × Mat V)
    (ns1 ns2 : List ℕ) (n0 : ℕ) (e : CE)
    (hacts : s.activations_ = some acts) (hcl : s.cl_ = some l)
    (hshape : acts.shape = (N, M, T)) (hstep : 0 < winstep)
    (hwl : winlen ≤ N) (hlne : l ≠ [])
    (hdec : pyOffsets ((N : ℤ) - winlen) winstep = ns1 ++ n0 :: ns2)
    (hfit : ∀ n ∈ ns1,
      E.varFitMC (sliceWin acts n winlen) l s.var_order_ s.var_delta_ =
        .ok (fmc n))
    (hbad : E.varFitMC (sliceWin acts n0 winlen) l s.var_order_ s.var_delta_ =
      .error e)
    (hsup : E.supported measure = true)
    (hlen : ns1.length ≤ (N - winlen) / winstep) :
    tfCompute E s measure winlen winstep = .error (.computation e) := by
  have hne0 : winstep ≠ 0 := Nat.pos_iff_ne_zero.mp hstep
  have hstop : (N : ℤ) - winlen = ((N - winlen : ℕ) : ℤ) := by omega
  simp only [tfCompute, hacts, hcl, hshape, hne0, if_false, hstop,
    fdiv_natCast, Int.toNat_natCast]
  rw [if_neg (fun h => absurd h.1 (not_lt.mpr (Int.natCast_nonneg _)))]
  rw [show pyOffsets (((N - winlen : ℕ) : ℤ)) winstep = ns1 ++ n0 :: ns2 from
    hstop ▸ hdec]
  rw [tfLoopMC_fitErr E measure winlen ((N - winlen) / winstep) s.var_order_
    s.var_delta_ s.nfft_ acts l fmc hsup (uniqueSorted_ne_nil hlne) n0 e hbad
    ns1 ns2 0 _ hfit (by omega)]
  rfl

theorem preparePlots_frame (E : Ext V W CE) (s : State V W) (mx um : Bool) :
    (preparePlots E s mx um).1.data_ = s.data_ ∧
    (preparePlots E s mx um).1.cl_ = s.cl_ ∧
    (preparePlots E s mx um).1.unmixing_ = s.unmixing_ ∧
    (preparePlots E s mx um).1.mixing_ = s.mixing_ ∧
    (preparePlots E s mx um).1.activations_ = s.activations_ ∧
    (preparePlots E s mx um).1.var_model_ = s.var_model_ ∧
    (preparePlots E s mx um).1.var_cov_ = s.var_cov_ ∧
    (preparePlots E s mx um).1.connectivity_ = s.connectivity_ := by
  unfold preparePlots unmixBranch
  cases hl : s.locations_ <;> dsimp only
  · exact ⟨rfl, rfl, rfl, rfl, rfl, rfl, rfl, rfl⟩
  · repeat' split
    all_goals exact ⟨rfl, rfl, rfl, rfl, rfl, rfl, rfl, rfl⟩

theorem inv_init (p : Params) : Inv (initState V W p) := by
  refine ⟨fun _ => rfl, ?_, ?_⟩
  · intro l hl
    exact Option.noConfusion hl
  · intro d hd
    exact Option.noConfusion hd

theorem inv_run [CommSemiring V] (E : Ext V W CE) (s : State V W) (op : Op V)
    (hInv : Inv s) (hop : GoodOp op) : Inv (run E s op).1 := by
  obtain ⟨h1, h2, h3⟩ := hInv
  cases op with
  | setData d cl =>
    refine ⟨?_, ?_, ?_⟩
    · intro hu
      show (match s.unmixing_ with
        | some u => some (dotSpecial d u)
        | none => s.activations_) = none
      have hu' : s.unmixing_ = none := hu
      rw [hu']
      exact h1 hu'
    · intro l hl
      have hcl : cl = some l := hl
      subst hcl
      intro hc
      exact hop (by rw [hc])
    · intro d' hd'
      exact Option.noConfusion hd'
  | doMVARICA =>
    show Inv (match doMVARICA E s with
      | .ok s' => (s', Except.ok Out.unit)
      | .error e => (s, Except.error e)).1
    cases hd : s.data_ with
    | none =>
      simp only [doMVARICA, hd]
      exact ⟨h1, h2, h3⟩
    | some d =>
      simp only [doMVARICA, hd]
      refine ⟨?_, ?_, ?_⟩
      · intro hu
        exact Option.noConfusion hu
      · exact h2
      · intro d' hd'
        simp at hd'
  | fitVAR =>
    show Inv (match fitVAR E s with
      | .ok s' => (s', Except.ok Out.unit)
      | .error e => (s, Except.error e)).1
    cases ha : s.activations_ with
    | none =>
      simp only [fitVAR, ha]
      exact ⟨h1, h2, h3⟩
    | some a =>
      cases hc : s.cl_ with
      | none =>
        cases hf : E.varFit a s.var_order_ s.var_delta_ with
        | error e =>
          simp only [fitVAR, ha, hc, hf]
          exact ⟨h1, h2, h3⟩
        | ok BC =>
          simp only [fitVAR, ha, hc, hf]
          refine ⟨?_, ?_, ?_⟩
          · intro hu
            exact Option.noConfusion (ha.symm.trans (h1 hu))
          · intro l hl
            exact Option.noConfusion hl
          · intro d' hd'
            simp at hd'
      | some l =>
        cases hf : E.varFitMC a l s.var_order_ s.var_delta_ with
        | error e =>
          simp only [fitVAR, ha, hc, hf]
          exact ⟨h1, h2, h3⟩
        | ok f =>
          simp only [fitVAR, ha, hc, hf]
          refine ⟨?_, ?_, ?_⟩
          · intro hu
            exact Option.noConfusion (ha.symm.trans (h1 hu))
          · intro l1 hl1
            injection hl1 with hl1
            subst hl1
            exact h2 _ hc
          · intro d' hd'
            simp only [Option.some.injEq, Rep.perClass.injEq] at hd'
            exact ⟨l, fun c => ((f c).1, (f c).2, s.nfft_), rfl, hd'.symm⟩
  | getConnectivity measure => exact ⟨h1, h2, h3⟩
  | getTFConnectivity measure winlen winstep => exact ⟨h1, h2, h3⟩
  | preparePlots mx um =>
    obtain ⟨_, hcl, hun, _, hac, _, _, hco⟩ := preparePlots_frame E s mx um
    show Inv (preparePlots E s mx um).1
    refine ⟨fun hu => ?_, fun l hl => h2 l (hcl ▸ hl), fun d hd => ?_⟩
    · rw [hac]
      exact h1 (hun ▸ hu)
    · obtain ⟨l, g, hcl', hform⟩ := h3 d (hco ▸ hd)
      exact ⟨l, g, hcl ▸ hcl', hform⟩

theorem inv_runSeq [CommSemiring V] (E : Ext V W CE) (ops : List (Op V)) :
    ∀ s, Inv s → (∀ op ∈ ops, GoodOp op) → Inv (runSeq E s ops) := by
  induction ops with
  | nil => intro s h _; exact h
  | cons op ops ih =>
    intro s h hops
    exact ih _ (inv_run E s op h (hops op (List.mem_cons_self _ _)))
      (fun o ho => hops o (List.mem_cons_of_mem _ ho))

theorem inv_reachableG [CommSemiring V] (E : Ext V W CE) (s : State V W)
    (h : ReachableG E s) : Inv s := by
  obtain ⟨p, ops, hops, rfl⟩ := h
  exact inv_runSeq E ops _ (inv_init p) hops

theorem run_I1 [CommSemiring V] (E : Ext V W CE) (op : Op V) (s : State V W)
    (h : s.unmixing_ = none → s.activations_ = none) :
    (run E s op).1.unmixing_ = none → (run E s op).1.activations_ = none := by
  cases op with
  | setData d cl =>
    intro hu
    show (match s.unmixing_ with
      | some u => some (dotSpecial d u)
      | none => s.activations_) = none
    have hu' : s.unmixing_ = none := hu
    rw [hu']
    exact h hu'
  | doMVARICA =>
    cases hd : s.data_ with
    | none => simp only [run, doMVARICA, hd]; exact h
    | some d =>
      simp only [run, doMVARICA, hd]
      intro hu
      exact Option.noConfusion hu
  | fitVAR =>
    cases ha : s.activations_ with
    | none => simp only [run, fitVAR, ha]; exact fun _ => trivial
    | some a =>
      cases hc : s.cl_ with
      | none =>
        cases hf : E.varFit a s.var_order_ s.var_delta_ with
        | error e =>
          simp only [run, fitVAR, ha, hc, hf]
          exact fun hu => Option.noConfusion (ha.symm.trans (h hu))
        | ok BC =>
          simp only [run, fitVAR, ha, hc, hf]
          intro hu
          exact Option.noConfusion (ha.symm.trans (h hu))
      | some l =>
        cases hf : E.varFitMC a l s.var_order_ s.var_delta_ with
        | error e =>
          simp only [run, fitVAR, ha, hc, hf]
          exact fun hu => Option.noConfusion (ha.symm.trans (h hu))
        | ok f =>
          simp only [run, fitVAR, ha, hc, hf]
          intro hu
          exact Option.noConfusion (ha.symm.trans (h hu))
  | getConnectivity measure => exact h
  | getTFConnectivity measure winlen winstep => exact h
  | preparePlots mx um =>
    obtain ⟨_, _, hun, _, hac, _, _, _⟩ := preparePlots_frame E s mx um
    intro hu
    exact hac.trans (h (hun ▸ hu))

theorem runSeq_I1 [CommSemiring V] (E : Ext V W CE) (ops : List (Op V)) :
    ∀ s : State V W, (s.unmixing_ = none → s.activations_ = none) →
      ((runSeq E s ops).unmixing_ = none → (runSeq E s ops).activations_ = none) := by
  induction ops with
  | nil => intro s h; exact h
  | cons op ops ih => intro s h; exact ih _ (run_I1 E op s h)

theorem reachable_I1 [CommSemiring V] (E : Ext V W CE) (s : State V W)
    (h : Reachable E s) : s.unmixing_ = none → s.activations_ = none := by
  obtain ⟨p, ops, rfl⟩ := h
  exact runSeq_I1 E ops _ (fun _ => rfl)

/-- C3: for every prior state (hence after any sequence of preceding
operations) and every `setData(signal, labels)` call, the call clears the
AR model, the noise covariance and the connectivity model — whether they
were single-instance, class-mapped, or absent before. -/
theorem scot_c3_setData_clears_models [CommSemiring V] (s : State V W)
    (d : Arr3 V) (cl : Option (List ℤ)) :
    (setData s d cl).var_model_ = none ∧
    (setData s d cl).var_cov_ = none ∧
    (setData s d cl).connectivity_ = none :=
  ⟨rfl, rfl, rfl⟩

/-- C4: after `setData` on a reachable state, if an unmixing transform is
stored the new activations are the projection of the new data through it,
with shape `(N', componentCount, T')`; and if no unmixing transform is
stored the activations are absent after the call (on reachable states they
were already absent, and `setData` leaves them so). -/
theorem scot_c4_auto_reprojection [CommSemiring V] (E : Ext V W CE)
    (s : State V W) (hreach : Reachable E s) (d : Arr3 V)
    (cl : Option (List ℤ)) :
    (∀ u, s.unmixing_ = some u →
      (setData s d cl).activations_ = some (dotSpecial d u) ∧
      (dotSpecial d u).shape = (d.shape.1, u.shape.2, d.shape.2.2)) ∧
    (s.unmixing_ = none → (setData s d cl).activations_ = none) := by
  constructor
  · intro u hu
    constructor
    · show (match s.unmixing_ with
        | some u => some (dotSpecial d u)
        | none => s.activations_) = some (dotSpecial d u)
      rw [hu]
    · rfl
  · intro hu
    show (match s.unmixing_ with
      | some u => some (dotSpecial d u)
      | none => s.activations_) = none
    rw [hu]
    exact reachable_I1 E s hreach hu

/-- Witness for C4: after a decomposition the unmixing transform is
`mat1`, and a subsequent `setData` with data of shape `(7, 1, 1)` projects
it to activations of shape `(7, 1, 1)`; at the initial state (no unmixing
transform) `setData` leaves activations absent. -/
theorem scot_c4_witness :
    (setData sW4 (constArr (7, 1, 1) 2) none).activations_ =
      some (dotSpecial (constArr (7, 1, 1) 2) mat1) ∧
    (dotSpecial (constArr (7, 1, 1) 2) mat1).shape = (7, 1, 1) ∧
    (setData (initState ℤ Unit p0) (constArr (7, 1, 1) 2) none).activations_ =
      none := by
  have h1 := scot_c4_auto_reprojection extTriv sW4
    ⟨p0, [.setData (constArr (5, 1, 1) 1) none, .doMVARICA], rfl⟩
    (constArr (7, 1, 1) 2) none
  have h2 := scot_c4_auto_reprojection extTriv (initState ℤ Unit p0)
    ⟨p0, [], rfl⟩ (constArr (7, 1, 1) 2) none
  obtain ⟨ha, hb⟩ := h1.1 mat1 rfl
  exact ⟨ha, hb, h2.2 rfl⟩

/-- C7: `doMVARICA` never assigns the activations: after a first `setData`
followed immediately by `doMVARICA`, the call succeeds, activations are
still absent while unmixing transform, AR model and connectivity model are
set, `fitVAR` and `getTFConnectivity` then fail with the activations
precondition error, and a further `setData` reprojects the new data
through the stored unmixing transform. -/
theorem scot_c7_doMVARICA_no_activations [CommSemiring V] (E : Ext V W CE)
    (p : Params) (d d' : Arr3 V) (cl cl' : Option (List ℤ))
    (measure : String) (winlen winstep : ℕ) :
    (run E (setData (initState V W p) d cl) Op.doMVARICA).2 = .ok .unit ∧
    (afterMVARICA E p d cl).activations_ = none ∧
    (afterMVARICA E p d cl).unmixing_ =
      some (E.mvarica d p.var_order (reduceArgs p.reducedim).1
        (reduceArgs p.reducedim).2 p.var_delta).unmixing ∧
    (afterMVARICA E p d cl).var_model_ ≠ none ∧
    (afterMVARICA E p d cl).connectivity_ ≠ none ∧
    fitVAR E (afterMVARICA E p d cl) = .error .precondition ∧
    (run E (afterMVARICA E p d cl)
      (Op.getTFConnectivity measure winlen winstep)).2 = .error .precondition ∧
    (setData (afterMVARICA E p d cl) d' cl').activations_ =
      some (dotSpecial d' (E.mvarica d p.var_order (reduceArgs p.reducedim).1
        (reduceArgs p.reducedim).2 p.var_delta).unmixing) :=
  ⟨rfl, rfl, rfl, fun h => Option.noConfusion h, fun h => Option.noConfusion h,
    rfl, rfl, rfl⟩

theorem setDataSeq_unset [CommSemiring V] (E : Ext V W CE)
    (sds : List (Arr3 V × Option (List ℤ))) :
    ∀ s : State V W, s.unmixing_ = none → s.activations_ = none →
      s.connectivity_ = none →
      (runSeq E s (sds.map fun pr => Op.setData pr.1 pr.2)).unmixing_ = none ∧
      (runSeq E s (sds.map fun pr => Op.setData pr.1 pr.2)).activations_ = none ∧
      (runSeq E s (sds.map fun pr => Op.setData pr.1 pr.2)).connectivity_ =
        none := by
  induction sds with
  | nil => intro s h1 h2 h3; exact ⟨h1, h2, h3⟩
  | cons pr sds ih =>
    intro s h1 h2 h3
    refine ih _ h1 ?_ rfl
    show (match s.unmixing_ with
      | some u => some (dotSpecial pr.1 u)
      | none => s.activations_) = none
    rw [h1]
    exact h2

/-- C6: `fitVAR` invoked before any data is set (the initial state) or
after any number of `setData` calls with no decomposition (activations
absent in all these states) fails with the precondition error and leaves
the state unchanged; `getConnectivity` invoked on any state with no
connectivity model fails with the precondition error and leaves the state
unchanged; both checks run before anything else, so no state is
modified. -/
theorem scot_c6_preconditions [CommSemiring V] :
    (∀ (E : Ext V W CE) (s : State V W), s.activations_ = none →
      run E s Op.fitVAR = (s, .error .precondition)) ∧
    (∀ (E : Ext V W CE) (s : State V W) (measure : String),
      s.connectivity_ = none →
      run E s (Op.getConnectivity measure) = (s, .error .precondition)) ∧
    (∀ p : Params, (initState V W p).activations_ = none ∧
      (initState V W p).connectivity_ = none) ∧
    (∀ (E : Ext V W CE) (p : Params) (sds : List (Arr3 V × Option (List ℤ))),
      (runSeq E (initState V W p)
        (sds.map fun pr => Op.setData pr.1 pr.2)).activations_ = none ∧
      (runSeq E (initState V W p)
        (sds.map fun pr => Op.setData pr.1 pr.2)).connectivity_ = none) := by
  refine ⟨?_, ?_, ?_, ?_⟩
  · intro E s h
    simp only [run, fitVAR, h]
  · intro E s measure h
    simp only [run, getConnectivity, h]
    rfl
  · intro p
    exact ⟨rfl, rfl⟩
  · intro E p sds
    obtain ⟨_, h2, h3⟩ := setDataSeq_unset E sds (initState V W p) rfl rfl rfl
    exact ⟨h2, h3⟩

/-- Witness for C6: at the initial state and after one `setData` (with no
decomposition) `fitVAR` fails with the precondition error without touching
the state, and `getConnectivity` at the initial state fails likewise. -/
theorem scot_c6_witness :
    run extTriv (initState ℤ Unit p0) Op.fitVAR =
      (initState ℤ Unit p0, .error .precondition) ∧
    run extTriv (setData (initState ℤ Unit p0) (constArr (5, 1, 1) 1) none)
        Op.fitVAR =
      (setData (initState ℤ Unit p0) (constArr (5, 1, 1) 1) none,
        .error .precondition) ∧
    run extTriv (initState ℤ Unit p0) (Op.getConnectivity "dtf") =
      (initState ℤ Unit p0, .error .precondition) := by
  refine ⟨?_, ?_, ?_⟩
  · exact scot_c6_preconditions.1 extTriv (initState ℤ Unit p0) rfl
  · exact scot_c6_preconditions.1 extTriv
      (setData (initState ℤ Unit p0) (constArr (5, 1, 1) 1) none) rfl
  · exact scot_c6_preconditions.2.1 extTriv (initState ℤ Unit p0) "dtf" rfl

theorem map_fst_keyed {A : Type} (g : ℤ → A) (ks : List ℤ) :
    (ks.map fun c => (c, g c)).map Prod.fst = ks := by
  induction ks with
  | nil => rfl
  | cons c ks ih => simp only [List.map_cons, ih]

/-- C5: after a successful `fitVAR`, the AR model, noise covariance and
connectivity model are all single-instance when no class labels are
stored, and all class-mapped with key set exactly the distinct label
values when class labels are stored; a successful `doMVARICA` always
yields the all-single form, even when class labels are present. -/
theorem scot_c5_mode_consistency [CommSemiring V] :
    (∀ (E : Ext V W CE) (s s' : State V W), fitVAR E s = .ok s' →
      (s.cl_ = none → allSingle s') ∧
      (∀ l, s.cl_ = some l → allPerClass s' (uniqueSorted l))) ∧
    (∀ (E : Ext V W CE) (s s' : State V W), doMVARICA E s = .ok s' →
      allSingle s') := by
  constructor
  · intro E s s' h
    cases ha : s.activations_ with
    | none =>
      simp only [fitVAR, ha] at h
      exact absurd h (by simp)
    | some a =>
      constructor
      · intro hc
        cases hf : E.varFit a s.var_order_ s.var_delta_ with
        | error e =>
          simp only [fitVAR, ha, hc, hf] at h
          exact absurd h (by simp)
        | ok BC =>
          simp only [fitVAR, ha, hc, hf, Except.ok.injEq] at h
          subst h
          exact ⟨⟨BC.1, rfl⟩, ⟨BC.2, rfl⟩, ⟨(BC.1, BC.2, s.nfft_), rfl⟩⟩
      · intro l hc
        cases hf : E.varFitMC a l s.var_order_ s.var_delta_ with
        | error e =>
          simp only [fitVAR, ha, hc, hf] at h
          exact absurd h (by simp)
        | ok f =>
          simp only [fitVAR, ha, hc, hf, Except.ok.injEq] at h
          subst h
          exact ⟨⟨_, rfl, map_fst_keyed _ _⟩, ⟨_, rfl, map_fst_keyed _ _⟩,
            ⟨_, rfl, map_fst_keyed _ _⟩⟩
  · intro E s s' h
    cases hd : s.data_ with
    | none =>
      simp only [doMVARICA, hd] at h
      exact absurd h (by simp)
    | some d =>
      simp only [doMVARICA, hd, Except.ok.injEq] at h
      subst h
      exact ⟨⟨_, rfl⟩, ⟨_, rfl⟩, ⟨_, rfl⟩⟩

/-- Witness for C5: fitting with class labels `[2, 1]` stored yields the
class-mapped form on all three fields, keyed by the distinct labels. -/
theorem scot_c5_witness :
    fitVAR extTriv sW5 = .ok sW5' ∧
    (sW5.cl_ = none → allSingle sW5') ∧
    (∀ l, sW5.cl_ = some l → allPerClass sW5' (uniqueSorted l)) := by
  have hfit : fitVAR extTriv sW5 = .ok sW5' := rfl
  exact ⟨hfit, (scot_c5_mode_consistency.1 extTriv sW5 sW5' hfit).1,
    (scot_c5_mode_consistency.1 extTriv sW5 sW5' hfit).2⟩

/-- C8: with a connectivity model present, `getConnectivity` with an
unrecognized measure name fails with the unsupported-measure error (in the
class-mapped case on every well-reachable state, whose key list is the
nonempty distinct label list), and with a recognized name returns the
evaluated single result, or the mapping over the distinct label values in
sorted order; the call never modifies the state. -/
theorem scot_c8_measure_dispatch [CommSemiring V] :
    (∀ (E : Ext V W CE) (s : State V W) (measure : String) (con : Conn V),
      s.connectivity_ = some (.single con) → E.supported measure = false →
      run E s (Op.getConnectivity measure) = (s, .error .unsupportedMeasure)) ∧
    (∀ (E : Ext V W CE) (s : State V W) (measure : String) (con : Conn V),
      s.connectivity_ = some (.single con) → E.supported measure = true →
      run E s (Op.getConnectivity measure) =
        (s, .ok (.conn (.single (E.meas measure con))))) ∧
    (∀ (E : Ext V W CE) (s : State V W) (measure : String)
      (d : List (ℤ × Conn V)), ReachableG E s →
      s.connectivity_ = some (.perClass d) → E.supported measure = false →
      run E s (Op.getConnectivity measure) = (s, .error .unsupportedMeasure)) ∧
    (∀ (E : Ext V W CE) (s : State V W) (measure : String)
      (d : List (ℤ × Conn V)), ReachableG E s →
      s.connectivity_ = some (.perClass d) → E.supported measure = true →
      ∃ (l : List ℤ) (g : ℤ → Conn V), s.cl_ = some l ∧
        d = (uniqueSorted l).map (fun c => (c, g c)) ∧
        run E s (Op.getConnectivity measure) =
          (s, .ok (.conn (.perClass
            ((uniqueSorted l).map fun c => (c, E.meas measure (g c))))))) := by
  refine ⟨?_, ?_, ?_, ?_⟩
  · intro E s measure con h hsup
    simp only [run, getConnectivity, h, hsup]
    rfl
  · intro E s measure con h hsup
    simp only [run, getConnectivity, h, hsup, if_true]
    rfl
  · intro E s measure d hreach h hsup
    obtain ⟨_, h2, h3⟩ := inv_reachableG E s hreach
    obtain ⟨l, g, hcl, hform⟩ := h3 d h
    have hlne : l ≠ [] := h2 l hcl
    simp only [run, getConnectivity, h, hcl]
    cases hus : uniqueSorted l with
    | nil => exact absurd hus (uniqueSorted_ne_nil hlne)
    | cons c cs =>
      rw [hform, hus,
        evalPerClass_unsupported E measure hsup g (c :: cs) c cs
          (List.mem_cons_self _ _)]
      rfl
  · intro E s measure d hreach h hsup
    obtain ⟨_, h2, h3⟩ := inv_reachableG E s hreach
    obtain ⟨l, g, hcl, hform⟩ := h3 d h
    refine ⟨l, g, hcl, hform, ?_⟩
    simp only [run, getConnectivity, h, hcl]
    rw [hform, evalPerClass_ok E measure hsup g (uniqueSorted l)
      (uniqueSorted l) (fun c hc => hc)]
    rfl

/-- Witness for C8: on a reachable state with a class-mapped connectivity
model keyed by the distinct labels of `[1, 2]`, the unknown measure name
fails with the unsupported-measure error and `"dtf"` returns the per-class
mapping; on a state with a single model both cases behave likewise. -/
theorem scot_c8_witness :
    run extDisp s8 (Op.getConnectivity "xyz") =
      (s8, .error .unsupportedMeasure) ∧
    (∃ (l : List ℤ) (g : ℤ → Conn ℤ), s8.cl_ = some l ∧
      some (Rep.perClass ((uniqueSorted l).map fun c => (c, g c))) =
        s8.connectivity_ ∧
      run extDisp s8 (Op.getConnectivity "dtf") =
        (s8, .ok (.conn (.perClass
          ((uniqueSorted l).map fun c => (c, extDisp.meas "dtf" (g c))))))) ∧
    run extDisp sSing (Op.getConnectivity "xyz") =
      (sSing, .error .unsupportedMeasure) ∧
    run extDisp sSing (Op.getConnectivity "dtf") =
      (sSing, .ok (.conn (.single (extDisp.meas "dtf" (mat1, mat1, 4))))) := by
  have hgood : ∀ op ∈ ops8, GoodOp op := by
    intro op hop
    simp only [ops8, List.mem_cons] at hop
    rcases hop with h | h | h | h | h
    · subst h; simp [GoodOp]
    · subst h; trivial
    · subst h; simp [GoodOp]
    · subst h; trivial
    · cases h
  have hreach : ReachableG extDisp s8 := ⟨p0, ops8, hgood, rfl⟩
  have hconn : s8.connectivity_ =
      some (.perClass ((uniqueSorted [1, 2]).map fun c =>
        (c, (mat1, mat1, (4 : ℕ))))) := rfl
  refine ⟨?_, ?_, ?_, ?_⟩
  · exact scot_c8_measure_dispatch.2.2.1 extDisp s8 "xyz" _ hreach hconn rfl
  · obtain ⟨l, g, hcl, hform, hrun⟩ :=
      scot_c8_measure_dispatch.2.2.2 extDisp s8 "dtf" _ hreach hconn rfl
    exact ⟨l, g, hcl, by rw [← hform]; exact hconn.symm, hrun⟩
  · exact scot_c8_measure_dispatch.1 extDisp sSing "xyz" (mat1, mat1, 4) rfl rfl
  · exact scot_c8_measure_dispatch.2.1 extDisp sSing "dtf" (mat1, mat1, 4)
      rfl rfl

/-- C1 counterexample: on a reachable state whose activations have shape
`(5, 1, 1)` — so `N - winlen = 3` is positive but not divisible by
`winstep = 2` — the call does not succeed: the window loop visits
`ceil(3 / 2) = 2` start offsets while only `Nstep = floor(3 / 2) = 1`
output slots were allocated, and the store at window index 1 raises an
IndexError (with every fit succeeding and the measure supported). -/
theorem scot_c1_counterexample :
    Option.map (fun a => a.shape) sCex1.activations_ = some (5, 1, 1) ∧
    tfCompute extTriv sCex1 "dtf" 2 2 = .error .indexError :=
  ⟨rfl, rfl⟩

/-- C1 amended: assuming the measure is recognized and every window fit
succeeds, a `getTFConnectivity` call on activations of shape `(N, M, T)`
with `0 < winstep` behaves as follows.  When `winlen ≤ N` and `winstep`
divides `N - winlen`, the call succeeds and returns exactly
`Nstep = (N - winlen) / winstep` window slots — shape
`(M, M, Nstep, nfft)`, one such array per distinct label in the class
case — with slot `i` holding the result for offset `i * winstep`; in
particular `Nstep = 0` yields an empty result and no error.  When
`N < winlen` the call fails with a ValueError (negative allocation; in
the class case assuming the labels are nonempty), and when `winlen ≤ N`
but `winstep` does not divide `N - winlen` it fails with an IndexError
(the loop visits one more offset than there are slots). -/
theorem scot_c1_amended [CommSemiring V] :
    (∀ (E : Ext V W CE) (s : State V W) (acts : Arr3 V) (measure : String)
      (winlen winstep N M T : ℕ) (fitf : ℕ → Mat V × Mat V),
      s.activations_ = some acts → s.cl_ = none → acts.shape = (N, M, T) →
      0 < winstep → winlen ≤ N → winstep ∣ (N - winlen) →
      E.supported measure = true →
      (∀ n ∈ pyOffsets ((N : ℤ) - winlen) winstep,
        E.varFit (sliceWin acts n winlen) s.var_order_ s.var_delta_ =
          .ok (fitf n)) →
      tfCompute E s measure winlen winstep =
        .ok (.single ⟨(M, M, (N - winlen) / winstep, s.nfft_),
          (List.range ((N - winlen) / winstep)).map
            fun k => slotVal E measure s.nfft_ (fitf (k * winstep))⟩)) ∧
    (∀ (E : Ext V W CE) (s : State V W) (acts : Arr3 V) (measure : String)
      (winlen winstep N M T : ℕ) (l : List ℤ) (fmc : ℕ → ℤ → Mat V × Mat V),
      s.activations_ = some acts → s.cl_ = some l → acts.shape = (N, M, T) →
      0 < winstep → winlen ≤ N → winstep ∣ (N - winlen) → l ≠ [] →
      E.supported measure = true →
      (∀ n ∈ pyOffsets ((N : ℤ) - winlen) winstep,
        E.varFitMC (sliceWin acts n winlen) l s.var_order_ s.var_delta_ =
          .ok (fmc n)) →
      tfCompute E s measure winlen winstep =
        .ok (.perClass ((uniqueSorted l).map fun c =>
          (c, ⟨(M, M, (N - winlen) / winstep, s.nfft_),
            (List.range ((N - winlen) / winstep)).map
              fun k => slotVal E measure s.nfft_ (fmc (k * winstep) c)⟩)))) ∧
    (∀ (E : Ext V W CE) (s : State V W) (acts : Arr3 V) (measure : String)
      (winlen winstep N M T : ℕ),
      s.activations_ = some acts → s.cl_ = none → acts.shape = (N, M, T) →
      0 < winstep → N < winlen →
      tfCompute E s measure winlen winstep = .error .valueError) ∧
    (∀ (E : Ext V W CE) (s : State V W) (acts : Arr3 V) (measure : String)
      (winlen winstep N M T : ℕ) (l : List ℤ),
      s.activations_ = some acts → s.cl_ = some l → acts.shape = (N, M, T) →
      0 < winstep → N < winlen → l ≠ [] →
      tfCompute E s measure winlen winstep = .error .valueError) ∧
    (∀ (E : Ext V W CE) (s : State V W) (acts : Arr3 V) (measure : String)
      (winlen winstep N M T : ℕ) (fitf : ℕ → Mat V × Mat V),
      s.activations_ = some acts → s.cl_ = none → acts.shape = (N, M, T) →
      0 < winstep → winlen ≤ N → ¬winstep ∣ (N - winlen) →
      E.supported measure = true →
      (∀ n ∈ pyOffsets ((N : ℤ) - winlen) winstep,
        E.varFit (sliceWin acts n winlen) s.var_order_ s.var_delta_ =
          .ok (fitf n)) →
      tfCompute E s measure winlen winstep = .error .indexError) ∧
    (∀ (E : Ext V W CE) (s : State V W) (acts : Arr3 V) (measure : String)
      (winlen winstep N M T : ℕ) (l : List ℤ) (fmc : ℕ → ℤ → Mat V × Mat V),
      s.activations_ = some acts → s.cl_ = some l → acts.shape = (N, M, T) →
      0 < winstep → winlen ≤ N → ¬winstep ∣ (N - winlen) → l ≠ [] →
      E.supported measure = true →
      (∀ n ∈ pyOffsets ((N : ℤ) - winlen) winstep,
        E.varFitMC (sliceWin acts n winlen) l s.var_order_ s.var_delta_ =
          .ok (fmc n)) →
      tfCompute E s measure winlen winstep = .error .indexError) := by
  refine ⟨?_, ?_, ?_, ?_, ?_, ?_⟩
  · intro E s acts measure winlen winstep N M T fitf h1 h2 h3 h4 h5 h6 h7 h8
    exact tfCompute_NC_ok E s acts measure winlen winstep N M T fitf
      h1 h2 h3 h4 h5 h6 h7 h8
  · intro E s acts measure winlen winstep N M T l fmc h1 h2 h3 h4 h5 h6 h7 h8 h9
    exact tfCompute_MC_ok E s acts measure winlen winstep N M T l fmc
      h1 h2 h3 h4 h5 h6 h7 h8 h9
  · intro E s acts measure winlen winstep N M T h1 h2 h3 h4 h5
    exact tfCompute_NC_valueErr E s acts measure winlen winstep N M T
      h1 h2 h3 h4 h5
  · intro E s acts measure winlen winstep N M T l h1 h2 h3 h4 h5 h6
    exact tfCompute_MC_valueErr E s acts measure winlen winstep N M T l
      h1 h2 h3 h4 h5 h6
  · intro E s acts measure winlen winstep N M T fitf h1 h2 h3 h4 h5 h6 h7 h8
    exact tfCompute_NC_indexErr E s acts measure winlen winstep N M T fitf
      h1 h2 h3 h4 h5 h6 h7 h8
  · intro E s acts measure winlen winstep N M T l fmc h1 h2 h3 h4 h5 h6 h7 h8 h9
    exact tfCompute_MC_indexErr E s acts measure winlen winstep N M T l fmc
      h1 h2 h3 h4 h5 h6 h7 h8 h9

/-- Witness for C1 amended: activations of shape `(6, 1, 1)`, window
length 2, step 2 give two full windows (`Nstep = 2`); window length 200
gives the negative-allocation error; activations of shape `(5, 1, 1)`
(step 2 not dividing 3) give the IndexError; and the class case with
labels `[2, 1]` on shape `(4, 1, 1)` gives one window per distinct
label. -/
theorem scot_c1_witness :
    tfCompute extTriv sW1 "dtf" 2 2 =
      .ok (.single ⟨(1, 1, 2, 4),
        (List.range 2).map fun _ => slotVal extTriv "dtf" 4 (mat1, mat1)⟩) ∧
    tfCompute extTriv sW1 "dtf" 200 50 = .error .valueError ∧
    tfCompute extTriv sW1 "dtf" 1 2 = .error .indexError ∧
    tfCompute extTriv sW5 "dtf" 2 2 =
      .ok (.perClass ((uniqueSorted [2, 1]).map fun c =>
        (c, ⟨(1, 1, 1, 4),
          (List.range 1).map fun _ => slotVal extTriv "dtf" 4 (mat1, mat1)⟩))) := by
  refine ⟨?_, ?_, ?_, ?_⟩
  · exact scot_c1_amended.1 extTriv sW1 (dotSpecial (constArr (6, 1, 1) 1) mat1)
      "dtf" 2 2 6 1 1 (fun _ => (mat1, mat1)) rfl rfl rfl (by decide)
      (by decide) (by decide) rfl (fun n _ => rfl)
  · exact scot_c1_amended.2.2.1 extTriv sW1
      (dotSpecial (constArr (6, 1, 1) 1) mat1) "dtf" 200 50 6 1 1
      rfl rfl rfl (by decide) (by decide)
  · exact scot_c1_amended.2.2.2.2.1 extTriv sW1
      (dotSpecial (constArr (6, 1, 1) 1) mat1) "dtf" 1 2 6 1 1
      (fun _ => (mat1, mat1)) rfl rfl rfl (by decide) (by decide) (by decide)
      rfl (fun n _ => rfl)
  · exact scot_c1_amended.2.1 extTriv sW5 (constArr (4, 1, 1) 1)
      "dtf" 2 2 4 1 1 [2, 1] (fun _ _ => (mat1, mat1)) rfl rfl rfl (by decide)
      (by decide) (by decide) (by decide) rfl (fun n _ => rfl)

theorem mem_pyOffsets (stop : ℤ) (step i : ℕ) (h : i < pyRangeLen stop step) :
    i * step ∈ pyOffsets stop step :=
  List.mem_map.mpr ⟨i, List.mem_range.mpr h, rfl⟩

theorem singleShotPath_NC [CommSemiring V] (E : Ext V W CE) (s : State V W)
    (a : Arr3 V) (measure : String) (BC : Mat V × Mat V)
    (hcl : s.cl_ = none)
    (hfit : E.varFit a s.var_order_ s.var_delta_ = .ok BC)
    (hsup : E.supported measure = true) :
    singleShotPath E s a measure =
      .ok (.single (E.meas measure (BC.1, BC.2, s.nfft_))) := by
  unfold singleShotPath
  simp only [fitVAR, hcl, hfit]
  simp only [getConnectivity, hsup, if_true]

theorem singleShotPath_MC [CommSemiring V] (E : Ext V W CE) (s : State V W)
    (a : Arr3 V) (measure : String) (l : List ℤ) (f : ℤ → Mat V × Mat V)
    (hcl : s.cl_ = some l)
    (hfit : E.varFitMC a l s.var_order_ s.var_delta_ = .ok f)
    (hsup : E.supported measure = true) :
    singleShotPath E s a measure =
      .ok (.perClass ((uniqueSorted l).map fun c =>
        (c, E.meas measure ((f c).1, (f c).2, s.nfft_)))) := by
  unfold singleShotPath
  simp only [fitVAR, hcl, hfit]
  simp only [getConnectivity, hcl]
  rw [evalPerClass_ok E measure hsup (fun c => ((f c).1, (f c).2, s.nfft_))
    (uniqueSorted l) (uniqueSorted l) (fun c hc => hc)]
  rfl

/-- C2 amended: on a successful sliding-window call, window slot `i` of
the output equals the result of the single-shot path (a fresh `fitVAR`
plus `getConnectivity` on exactly the window slice `[n, n + winlen)`, with
the same class labels and configuration, no state carried between
windows) *after the elementwise `complex64` narrowing* that storing into
the `np.complex64` output array applies; the single-shot path itself
returns the unnarrowed measure result, so the two agree bit-for-bit
exactly when every stored value is `complex64`-representable. -/
theorem scot_c2_amended [CommSemiring V] :
    (∀ (E : Ext V W CE) (s : State V W) (acts : Arr3 V) (measure : String)
      (winlen winstep N M T i : ℕ) (fitf : ℕ → Mat V × Mat V),
      s.activations_ = some acts → s.cl_ = none → acts.shape = (N, M, T) →
      0 < winstep → winlen ≤ N → winstep ∣ (N - winlen) →
      E.supported measure = true →
      (∀ n ∈ pyOffsets ((N : ℤ) - winlen) winstep,
        E.varFit (sliceWin acts n winlen) s.var_order_ s.var_delta_ =
          .ok (fitf n)) →
      i < (N - winlen) / winstep →
      tfCompute E s measure winlen winstep =
        .ok (.single ⟨(M, M, (N - winlen) / winstep, s.nfft_),
          (List.range ((N - winlen) / winstep)).map
            fun k => slotVal E measure s.nfft_ (fitf (k * winstep))⟩) ∧
      singleShotPath E s (sliceWin acts (i * winstep) winlen) measure =
        .ok (.single (E.meas measure
          ((fitf (i * winstep)).1, (fitf (i * winstep)).2, s.nfft_))) ∧
      ((List.range ((N - winlen) / winstep)).map
          fun k => slotVal E measure s.nfft_ (fitf (k * winstep)))[i]? =
        some (mapArr3 E.c64 (E.meas measure
          ((fitf (i * winstep)).1, (fitf (i * winstep)).2, s.nfft_)))) ∧
    (∀ (E : Ext V W CE) (s : State V W) (acts : Arr3 V) (measure : String)
      (winlen winstep N M T i : ℕ) (l : List ℤ) (fmc : ℕ → ℤ → Mat V × Mat V),
      s.activations_ = some acts → s.cl_ = some l → acts.shape = (N, M, T) →
      0 < winstep → winlen ≤ N → winstep ∣ (N - winlen) → l ≠ [] →
      E.supported measure = true →
      (∀ n ∈ pyOffsets ((N : ℤ) - winlen) winstep,
        E.varFitMC (sliceWin acts n winlen) l s.var_order_ s.var_delta_ =
          .ok (fmc n)) →
      i < (N - winlen) / winstep →
      tfCompute E s measure winlen winstep =
        .ok (.perClass ((uniqueSorted l).map fun c =>
          (c, ⟨(M, M, (N - winlen) / winstep, s.nfft_),
            (List.range ((N - winlen) / winstep)).map
              fun k => slotVal E measure s.nfft_ (fmc (k * winstep) c)⟩))) ∧
      singleShotPath E s (sliceWin acts (i * winstep) winlen) measure =
        .ok (.perClass ((uniqueSorted l).map fun c =>
          (c, E.meas measure
            ((fmc (i * winstep) c).1, (fmc (i * winstep) c).2, s.nfft_)))) ∧
      (∀ c : ℤ,
        ((List.range ((N - winlen) / winstep)).map
            fun k => slotVal E measure s.nfft_ (fmc (k * winstep) c))[i]? =
          some (mapArr3 E.c64 (E.meas measure
            ((fmc (i * winstep) c).1, (fmc (i * winstep) c).2, s.nfft_))))) := by
  constructor
  · intro E s acts measure winlen winstep N M T i fitf
      h1 h2 h3 h4 h5 h6 h7 h8 hi
    have hstop : (N : ℤ) - winlen = ((N - winlen : ℕ) : ℤ) := by omega
    have hmem : i * winstep ∈ pyOffsets ((N : ℤ) - winlen) winstep := by
      rw [hstop]
      exact mem_pyOffsets _ _ _ (by rw [pyRangeLen_dvd _ _ h4 h6]; exact hi)
    refine ⟨tfCompute_NC_ok E s acts measure winlen winstep N M T fitf
      h1 h2 h3 h4 h5 h6 h7 h8, ?_, ?_⟩
    · exact singleShotPath_NC E s _ measure _ h2 (h8 _ hmem) h7
    · rw [List.getElem?_map, List.getElem?_range hi]
      rfl
  · intro E s acts measure winlen winstep N M T i l fmc
      h1 h2 h3 h4 h5 h6 h7 h8 h9 hi
    have hstop : (N : ℤ) - winlen = ((N - winlen : ℕ) : ℤ) := by omega
    have hmem : i * winstep ∈ pyOffsets ((N : ℤ) - winlen) winstep := by
      rw [hstop]
      exact mem_pyOffsets _ _ _ (by rw [pyRangeLen_dvd _ _ h4 h6]; exact hi)
    refine ⟨tfCompute_MC_ok E s acts measure winlen winstep N M T l fmc
      h1 h2 h3 h4 h5 h6 h7 h8 h9, ?_, ?_⟩
    · exact singleShotPath_MC E s _ measure l _ h2 (h9 _ hmem) h8
    · intro c
      rw [List.getElem?_map, List.getElem?_range hi]
      rfl

/-- C2 counterexample: the claim's "bit-identical" fails because the
sliding-window output array has dtype `complex64` while the single-shot
path returns the measure result unnarrowed.  Under an instantiation whose
measure evaluates to `2^24 + 1` (an integer value real measures can
attain, and the smallest positive integer binary32 cannot represent, so
the `complex64` store rounds it to `2^24`), slot 0 of the window call
holds `16777216` while the single-shot path on the same window slice
returns `16777217`. -/
theorem scot_c2_counterexample :
    tfEntryNC (tfCompute extC64 sC2 "dtf" 2 2) 0 0 0 0 = some 16777216 ∧
    connEntrySingle
      (singleShotPath extC64 sC2
        (sliceWin (dotSpecial (constArr (4, 1, 1) 1) mat1) 0 2) "dtf") 0 0 0 =
      some 16777217 ∧
    (16777216 : ℤ) ≠ 16777217 :=
  ⟨rfl, rfl, by decide⟩

/-- Witness for C2 amended: shape `(6, 1, 1)`, window length 2, step 2,
window index 1 in the non-class case, and the class case with labels
`[2, 1]`, index 0, label 1. -/
theorem scot_c2_witness :
    (tfCompute extC64 sW1C2 "dtf" 2 2 =
      .ok (.single ⟨(1, 1, 2, 4),
        (List.range 2).map fun _ => slotVal extC64 "dtf" 4 (mat1, mat1)⟩) ∧
      singleShotPath extC64 sW1C2
          (sliceWin (dotSpecial (constArr (6, 1, 1) 1) mat1) 2 2) "dtf" =
        .ok (.single (extC64.meas "dtf" (mat1, mat1, 4))) ∧
      ((List.range 2).map
          fun _ => slotVal extC64 "dtf" 4 (mat1, mat1))[1]? =
        some (mapArr3 extC64.c64 (extC64.meas "dtf" (mat1, mat1, 4)))) ∧
    ((List.range 1).map
        fun _ => slotVal extTriv "dtf" 4 (mat1, mat1))[0]? =
      some (mapArr3 extTriv.c64 (extTriv.meas "dtf" (mat1, mat1, 4))) := by
  constructor
  · exact scot_c2_amended.1 extC64 sW1C2
      (dotSpecial (constArr (6, 1, 1) 1) mat1) "dtf" 2 2 6 1 1 1
      (fun _ => (mat1, mat1)) rfl rfl rfl (by decide) (by decide) (by decide)
      rfl (fun n _ => rfl) (by decide)
  · exact (scot_c2_amended.2 extTriv sW5 (constArr (4, 1, 1) 1) "dtf" 2 2
      4 1 1 0 [2, 1] (fun _ _ => (mat1, mat1)) rfl rfl rfl (by decide)
      (by decide) (by decide) (by decide) rfl (fun n _ => rfl)
      (by decide)).2.2 1

/-- C9: `getTFConnectivity` modifies no orchestrator state, on success or
failure; and if the AR fit of a window fails (all earlier windows having
fitted and been stored), the whole call fails with the propagated
computation error — no partial output is returned and no retry or local
recovery happens, in both the non-class and the class branch. -/
theorem scot_c9_window_failure [CommSemiring V] :
    (∀ (E : Ext V W CE) (s : State V W) (measure : String)
      (winlen winstep : ℕ),
      (run E s (Op.getTFConnectivity measure winlen winstep)).1 = s) ∧
    (∀ (E : Ext V W CE) (s : State V W) (acts : Arr3 V) (measure : String)
      (winlen winstep N M T : ℕ) (fitf : ℕ → Mat V × Mat V)
      (ns1 ns2 : List ℕ) (n0 : ℕ) (e : CE),
      s.activations_ = some acts → s.cl_ = none → acts.shape = (N, M, T) →
      0 < winstep → winlen ≤ N →
      pyOffsets ((N : ℤ) - winlen) winstep = ns1 ++ n0 :: ns2 →
      (∀ n ∈ ns1, E.varFit (sliceWin acts n winlen) s.var_order_
        s.var_delta_ = .ok (fitf n)) →
      E.varFit (sliceWin acts n0 winlen) s.var_order_ s.var_delta_ =
        .error e →
      E.supported measure = true →
      ns1.length ≤ (N - winlen) / winstep →
      tfCompute E s measure winlen winstep = .error (.computation e)) ∧
    (∀ (E : Ext V W CE) (s : State V W) (acts : Arr3 V) (measure : String)
      (winlen winstep N M T : ℕ) (l : List ℤ) (fmc : ℕ → ℤ → Mat V × Mat V)
      (ns1 ns2 : List ℕ) (n0 : ℕ) (e : CE),
      s.activations_ = some acts → s.cl_ = some l → acts.shape = (N, M, T) →
      0 < winstep → winlen ≤ N → l ≠ [] →
      pyOffsets ((N : ℤ) - winlen) winstep = ns1 ++ n0 :: ns2 →
      (∀ n ∈ ns1, E.varFitMC (sliceWin acts n winlen) l s.var_order_
        s.var_delta_ = .ok (fmc n)) →
      E.varFitMC (sliceWin acts n0 winlen) l s.var_order_ s.var_delta_ =
        .error e →
      E.supported measure = true →
      ns1.length ≤ (N - winlen) / winstep →
      tfCompute E s measure winlen winstep = .error (.computation e)) := by
  refine ⟨?_, ?_, ?_⟩
  · intro E s measure winlen winstep
    rfl
  · intro E s acts measure winlen winstep N M T fitf ns1 ns2 n0 e
      h1 h2 h3 h4 h5 h6 h7 h8 h9 h10
    exact tfCompute_NC_fitErr E s acts measure winlen winstep N M T fitf
      ns1 ns2 n0 e h1 h2 h3 h4 h5 h6 h7 h8 h9 h10
  · intro E s acts measure winlen winstep N M T l fmc ns1 ns2 n0 e
      h1 h2 h3 h4 h5 h6 h7 h8 h9 h10 h11
    exact tfCompute_MC_fitErr E s acts measure winlen winstep N M T l fmc
      ns1 ns2 n0 e h1 h2 h3 h4 h5 h6 h7 h8 h9 h10 h11

/-- Witness for C9: activations of shape `(6, 1, 1)` whose second window
(offset 2) starts with the failing marker; the first window fits fine, the
call fails with the propagated computation error, and the state is
untouched — in the non-class and in the class branch. -/
theorem scot_c9_witness :
    (run extFail sFail (Op.getTFConnectivity "dtf" 2 2)).1 = sFail ∧
    tfCompute extFail sFail "dtf" 2 2 = .error (.computation ()) ∧
    tfCompute extFail sFailMC "dtf" 2 2 = .error (.computation ()) := by
  refine ⟨scot_c9_window_failure.1 extFail sFail "dtf" 2 2, ?_, ?_⟩
  · exact scot_c9_window_failure.2.1 extFail sFail
      ⟨(6, 1, 1), fun n _ _ => if n = 2 then 99 else 0⟩ "dtf" 2 2 6 1 1
      (fun _ => (mat1, mat1)) [0] [] 2 () rfl rfl rfl (by decide) (by decide)
      (by decide)
      (by intro n hn; rw [List.mem_singleton] at hn; subst hn; rfl)
      rfl rfl (by decide)
  · exact scot_c9_window_failure.2.2 extFail sFailMC
      ⟨(6, 1, 1), fun n _ _ => if n = 2 then 99 else 0⟩ "dtf" 2 2 6 1 1
      [1] (fun _ _ => (mat1, mat1)) [0] [] 2 () rfl rfl rfl (by decide)
      (by decide) (by decide) (by decide)
      (by intro n hn; rw [List.mem_singleton] at hn; subst hn; rfl)
      rfl rfl (by decide)

/-- C10 amended: `preparePlots` fails with the precondition error when no
sensor locations are configured; it lazily builds the per-component scalp
maps on the first request (mixing maps from the rows of the mixing matrix,
unmixing maps from the columns of the unmixing matrix) and reuses a
nonempty cache on repeated requests without recomputation; but the caches
are never invalidated: a successful `doMVARICA` stores new transforms and
leaves both map caches unchanged, so later plot requests keep serving maps
computed from the old transforms. -/
theorem scot_c10_amended [CommSemiring V] :
    (∀ (E : Ext V W CE) (s : State V W) (mx um : Bool),
      s.locations_ = none →
      preparePlots E s mx um = (s, .error .precondition)) ∧
    (∀ (E : Ext V W CE) (s : State V W) (loc : ℤ) (m : Mat V),
      s.locations_ = some loc → s.mixmaps_ = [] → s.mixing_ = some m →
      (preparePlots E s true false).1.mixmaps_ = mixMapsOf E loc m ∧
      (preparePlots E s true false).2 = .ok ()) ∧
    (∀ (E : Ext V W CE) (s : State V W) (loc : ℤ),
      s.locations_ = some loc → s.mixmaps_ ≠ [] →
      (preparePlots E s true false).1.mixmaps_ = s.mixmaps_ ∧
      (preparePlots E s true false).2 = .ok ()) ∧
    (∀ (E : Ext V W CE) (s : State V W) (loc : ℤ) (u : Mat V),
      s.locations_ = some loc → s.unmixmaps_ = [] → s.unmixing_ = some u →
      (preparePlots E s false true).1.unmixmaps_ = unmixMapsOf E loc u ∧
      (preparePlots E s false true).2 = .ok ()) ∧
    (∀ (E : Ext V W CE) (s : State V W) (loc : ℤ),
      s.locations_ = some loc → s.unmixmaps_ ≠ [] →
      (preparePlots E s false true).1.unmixmaps_ = s.unmixmaps_ ∧
      (preparePlots E s false true).2 = .ok ()) ∧
    (∀ (E : Ext V W CE) (s s' : State V W), doMVARICA E s = .ok s' →
      s'.mixmaps_ = s.mixmaps_ ∧ s'.unmixmaps_ = s.unmixmaps_) := by
  refine ⟨?_, ?_, ?_, ?_, ?_, ?_⟩
  · intro E s mx um h
    simp only [preparePlots, h]
  · intro E s loc m hloc hmm hmix
    simp only [preparePlots, hloc]
    by_cases ht : s.topo_ <;>
      simp [ht, hmm, hmix, unmixBranch]
  · intro E s loc hloc hne
    simp only [preparePlots, hloc]
    by_cases ht : s.topo_ <;>
      simp [ht, List.isEmpty_eq_false_iff_exists_mem.mpr
        (List.exists_mem_of_ne_nil _ hne), unmixBranch]
  · intro E s loc u hloc hum hunmix
    simp only [preparePlots, hloc]
    by_cases ht : s.topo_ <;>
      simp [ht, hum, hunmix, unmixBranch]
  · intro E s loc hloc hne
    simp only [preparePlots, hloc]
    by_cases ht : s.topo_ <;>
      simp [ht, List.isEmpty_eq_false_iff_exists_mem.mpr
        (List.exists_mem_of_ne_nil _ hne), unmixBranch]
  · intro E s s' h
    cases hd : s.data_ with
    | none =>
      simp only [doMVARICA, hd] at h
      exact absurd h (by simp)
    | some d =>
      simp only [doMVARICA, hd, Except.ok.injEq] at h
      subst h
      exact ⟨rfl, rfl⟩

/-- C10 counterexample: the topology caches are NOT invalidated by a new
decomposition.  After decompose-on-data-A, `preparePlots`,
decompose-on-data-B, `preparePlots`, the mixing-map cache still holds the
map computed from data A's mixing matrix (`1`), while the map the stored
(new) mixing matrix would give is `2` — the second plot request reused the
stale cache instead of recomputing from the new transforms. -/
theorem scot_c10_counterexample :
    s10.mixmaps_ = [1] ∧
    Option.map (mixMapsOf extTopo 0) s10.mixing_ = some [2] ∧
    ([1] : List ℤ) ≠ [2] :=
  ⟨rfl, rfl, by decide⟩

/-- Witness for C10 amended: no locations gives the precondition error; on
a decomposed state with locations the first request builds the maps, the
second reuses them; and `doMVARICA` leaves both caches unchanged. -/
theorem scot_c10_witness :
    preparePlots extTopo (initState ℤ ℤ p0) true true =
      (initState ℤ ℤ p0, .error .precondition) ∧
    ((preparePlots extTopo s10b true false).1.mixmaps_ =
        mixMapsOf extTopo 0 ⟨(1, 1), fun _ _ => 1⟩ ∧
      (preparePlots extTopo s10b true false).2 = .ok ()) ∧
    ((preparePlots extTopo s10a true false).1.mixmaps_ = s10a.mixmaps_ ∧
      (preparePlots extTopo s10a true false).2 = .ok ()) ∧
    ((run extTopo s10a Op.doMVARICA).1.mixmaps_ = s10a.mixmaps_ ∧
      (run extTopo s10a Op.doMVARICA).1.unmixmaps_ = s10a.unmixmaps_) := by
  refine ⟨?_, ?_, ?_, ?_⟩
  · exact scot_c10_amended.1 extTopo (initState ℤ ℤ p0) true true rfl
  · exact scot_c10_amended.2.1 extTopo s10b 0 ⟨(1, 1), fun _ _ => 1⟩
      rfl rfl rfl
  · exact scot_c10_amended.2.2.1 extTopo s10a 0 rfl
      (by rw [show s10a.mixmaps_ = [1] from rfl]; decide)
  · exact scot_c10_amended.2.2.2.2.2 extTopo s10a
      (run extTopo s10a Op.doMVARICA).1 rfl

end Scot
